import Mathlib

/-!
Shallow embedding of `contracts/subscription_vault/src/lib.rs` (Soroban
subscription vault).  Addresses are modelled as natural numbers, `i128`
values as `Int`, `u64` values as `Nat` together with explicit `2^64`
bounds where the source performs checked arithmetic.  Soroban instance
storage is modelled as a record of the keys the contract uses; a
subscription map is an association list keyed by `u32` ids.  A contract
call either traps (Rust panic / failed `require_auth`), returns an
error, or returns a value; on an error or a trap the Soroban host
reverts the call's storage writes, so the post-call state of a failed
call is the pre-call state.
-/

namespace Vault

/-- `u32` error codes of the `Error` contracterror enum in the source. -/
inductive Error where
  | NotFound
  | Unauthorized
  | IntervalNotElapsed
  | NotActive
  | UsageNotEnabled
  | InsufficientPrepaidBalance
  | InvalidAmount
  | InvalidStatusTransition
  | BelowMinimumTopup
deriving DecidableEq, Repr

/-- The stable numeric code of each `Error` variant (`#[repr(u32)]`). -/
def Error.code : Error → Nat
  | .NotFound => 404
  | .Unauthorized => 401
  | .IntervalNotElapsed => 1001
  | .NotActive => 1002
  | .UsageNotEnabled => 1003
  | .InsufficientPrepaidBalance => 1004
  | .InvalidAmount => 1005
  | .InvalidStatusTransition => 400
  | .BelowMinimumTopup => 402

/-- The `SubscriptionStatus` contracttype enum. -/
inductive SubscriptionStatus where
  | Active
  | Paused
  | Cancelled
  | InsufficientBalance
deriving DecidableEq, Repr

/-- Principal identifiers (`soroban_sdk::Address`), modelled opaquely as
naturals. -/
abbrev Address : Type := Nat

/-- The `Subscription` contracttype struct. -/
structure Subscription where
  subscriber : Address
  merchant : Address
  amount : Int
  interval_seconds : Nat
  last_payment_timestamp : Nat
  status : SubscriptionStatus
  prepaid_balance : Int
  usage_enabled : Bool
deriving DecidableEq, Repr

/-- `validate_status_transition` from the source: same-state transitions
are always allowed, otherwise the pair must be an edge of the static
transition table; every other pair fails `InvalidStatusTransition`. -/
def validate_status_transition (from' to' : SubscriptionStatus) :
    Except Error Unit :=
  if from' = to' then Except.ok ()
  else
    let valid :=
      match from' with
      | .Active =>
          match to' with
          | .Paused | .Cancelled | .InsufficientBalance => true
          | _ => false
      | .Paused =>
          match to' with
          | .Active | .Cancelled => true
          | _ => false
      | .Cancelled => false
      | .InsufficientBalance =>
          match to' with
          | .Active | .Cancelled => true
          | _ => false
    if valid then Except.ok () else Except.error Error.InvalidStatusTransition

/-- `get_allowed_transitions` from the source: the static target list of
each status. -/
def get_allowed_transitions : SubscriptionStatus → List SubscriptionStatus
  | .Active => [.Paused, .Cancelled, .InsufficientBalance]
  | .Paused => [.Active, .Cancelled]
  | .Cancelled => []
  | .InsufficientBalance => [.Active, .Cancelled]

/-- `can_transition` from the source: boolean form of
`validate_status_transition`. -/
def can_transition (from' to' : SubscriptionStatus) : Bool :=
  match validate_status_transition from' to' with
  | .ok _ => true
  | .error _ => false

/-- The keys the contract stores in Soroban instance storage: the
`Symbol` keys `token`, `admin`, `min_topup`, `next_id`, and one `u32`
key per subscription.  The subscription map is an association list. -/
structure VaultState where
  token : Option Address
  admin : Option Address
  min_topup : Option Int
  next_id : Option Nat
  subs : List (Nat × Subscription)
deriving DecidableEq, Repr

/-- Storage read of a subscription key (`storage().instance().get(&id)`). -/
def getRec : List (Nat × Subscription) → Nat → Option Subscription
  | [], _ => none
  | (k, v) :: t, id => if k = id then some v else getRec t id

/-- Storage write of a subscription key (`storage().instance().set`),
replacing the whole record. -/
def setRec : List (Nat × Subscription) → Nat → Subscription →
    List (Nat × Subscription)
  | [], id, r => [(id, r)]
  | (k, v) :: t, id, r =>
      if k = id then (id, r) :: t else (k, v) :: setRec t id r

/-- Whole-record write into the subscription component of the state. -/
def setSub (s : VaultState) (id : Nat) (r : Subscription) : VaultState :=
  { s with subs := setRec s.subs id r }

/-- Result of one contract invocation.  `trap` is a Rust panic or a
failed `require_auth`; `err`/`ok` carry the storage state at the return
point.  The Soroban host reverts storage on `err` and `trap`. -/
inductive Outcome (α : Type) where
  | trap : Outcome α
  | err : Error → VaultState → Outcome α
  | ok : α → VaultState → Outcome α
deriving DecidableEq, Repr

/-- `u64::MAX + 1`: `checked_add` on `u64` returns `None` exactly when
the mathematical sum reaches this bound. -/
def U64_MOD : Nat := 2 ^ 64

/-- `init` from the source: unconditionally writes `token`, `admin` and
`min_topup`.  There is no once-only guard and no authorization check. -/
def init (token admin : Address) (min_topup : Int) (s : VaultState) :
    Outcome Unit :=
  Outcome.ok ()
    { s with token := some token, admin := some admin,
             min_topup := some min_topup }

/-- `set_min_topup` from the source: `admin.require_auth()` (trap when
the host denies), then the stored admin is read (`NotFound` when
absent), compared with the caller (`Unauthorized` on mismatch), and the
threshold written. -/
def set_min_topup (admin : Address) (min_topup : Int) (authd : Bool)
    (s : VaultState) : Outcome Unit :=
  if ¬ authd then Outcome.trap
  else
    match s.admin with
    | none => Outcome.err Error.NotFound s
    | some stored_admin =>
        if admin ≠ stored_admin then Outcome.err Error.Unauthorized s
        else Outcome.ok () { s with min_topup := some min_topup }

/-- `get_min_topup` from the source. -/
def get_min_topup (s : VaultState) : Outcome Int :=
  match s.min_topup with
  | none => Outcome.err Error.NotFound s
  | some m => Outcome.ok m s

/-- `_next_id` from the source: reads `next_id` (default 0) and writes
back its successor, returning the old value. -/
def nextIdVal (s : VaultState) : Nat := s.next_id.getD 0

/-- `create_subscription` from the source: after the subscriber's
authorization, stores a fresh record with the current ledger timestamp,
status `Active` and zero prepaid balance at the next free id.  No
validation of `amount` or `interval_seconds` is performed. -/
def create_subscription (subscriber merchant : Address) (amount : Int)
    (interval_seconds : Nat) (usage_enabled : Bool) (now : Nat)
    (authd : Bool) (s : VaultState) : Outcome Nat :=
  if ¬ authd then Outcome.trap
  else
    let sub : Subscription :=
      { subscriber := subscriber, merchant := merchant, amount := amount,
        interval_seconds := interval_seconds,
        last_payment_timestamp := now, status := .Active,
        prepaid_balance := 0, usage_enabled := usage_enabled }
    let id := nextIdVal s
    let s1 := { s with next_id := some (id + 1) }
    Outcome.ok id { s1 with subs := setRec s1.subs id sub }

/-- `deposit_funds` from the source: after the subscriber's
authorization, reads `min_topup` (`NotFound` when unset) and rejects
amounts below it (`BelowMinimumTopup`); the crediting of
`prepaid_balance` is a TODO stub, so the success path performs no
storage write at all. -/
def deposit_funds (subscription_id : Nat) (subscriber : Address)
    (amount : Int) (authd : Bool) (s : VaultState) : Outcome Unit :=
  if ¬ authd then Outcome.trap
  else
    match s.min_topup with
    | none => Outcome.err Error.NotFound s
    | some m =>
        if amount < m then Outcome.err Error.BelowMinimumTopup s
        else Outcome.ok () s

/-- `charge_subscription` from the source: looks the record up
(`NotFound`), requires `Active` (`NotActive`), computes
`last_payment_timestamp + interval_seconds` with `checked_add` and
`.expect` — a trap when the `u64` sum overflows — then requires the
interval to have elapsed (`IntervalNotElapsed`).  On success only
`last_payment_timestamp` is advanced to `now`; the balance deduction is
a TODO stub. -/
def charge_subscription (subscription_id : Nat) (now : Nat)
    (s : VaultState) : Outcome Unit :=
  match getRec s.subs subscription_id with
  | none => Outcome.err Error.NotFound s
  | some sub =>
      if sub.status ≠ .Active then Outcome.err Error.NotActive s
      else if U64_MOD ≤ sub.last_payment_timestamp + sub.interval_seconds
        then Outcome.trap
      else if now < sub.last_payment_timestamp + sub.interval_seconds then
        Outcome.err Error.IntervalNotElapsed s
      else
        let sub2 := { sub with last_payment_timestamp := now }
        Outcome.ok () { s with subs := setRec s.subs subscription_id sub2 }

/-- `charge_usage` from the source: checks, in order, existence
(`NotFound`), `Active` status (`NotActive`), the `usage_enabled` flag
(`UsageNotEnabled`), positivity of the amount (`InvalidAmount`) and
balance sufficiency (`InsufficientPrepaidBalance`); then debits the
balance and, exactly when the new balance is zero, sets the status to
`InsufficientBalance`. -/
def charge_usage (subscription_id : Nat) (usage_amount : Int)
    (s : VaultState) : Outcome Unit :=
  match getRec s.subs subscription_id with
  | none => Outcome.err Error.NotFound s
  | some sub =>
      if sub.status ≠ .Active then Outcome.err Error.NotActive s
      else if ¬ sub.usage_enabled then Outcome.err Error.UsageNotEnabled s
      else if usage_amount ≤ 0 then Outcome.err Error.InvalidAmount s
      else if sub.prepaid_balance < usage_amount then
        Outcome.err Error.InsufficientPrepaidBalance s
      else
        let b := sub.prepaid_balance - usage_amount
        let st := if b = 0 then SubscriptionStatus.InsufficientBalance
          else sub.status
        let sub2 := { sub with prepaid_balance := b, status := st }
        Outcome.ok () { s with subs := setRec s.subs subscription_id sub2 }

/-- `cancel_subscription` from the source: authorization, lookup via
`get_subscription`, `validate_status_transition` to `Cancelled`, then
the status write.  No balance movement occurs. -/
def cancel_subscription (subscription_id : Nat) (authorizer : Address)
    (authd : Bool) (s : VaultState) : Outcome Unit :=
  if ¬ authd then Outcome.trap
  else
    match getRec s.subs subscription_id with
    | none => Outcome.err Error.NotFound s
    | some sub =>
        match validate_status_transition sub.status .Cancelled with
        | .error e => Outcome.err e s
        | .ok _ =>
            let sub2 := { sub with status := SubscriptionStatus.Cancelled }
            Outcome.ok ()
              { s with subs := setRec s.subs subscription_id sub2 }

/-- `pause_subscription` from the source: like `cancel_subscription`
with target status `Paused`. -/
def pause_subscription (subscription_id : Nat) (authorizer : Address)
    (authd : Bool) (s : VaultState) : Outcome Unit :=
  if ¬ authd then Outcome.trap
  else
    match getRec s.subs subscription_id with
    | none => Outcome.err Error.NotFound s
    | some sub =>
        match validate_status_transition sub.status .Paused with
        | .error e => Outcome.err e s
        | .ok _ =>
            let sub2 := { sub with status := SubscriptionStatus.Paused }
            Outcome.ok ()
              { s with subs := setRec s.subs subscription_id sub2 }

/-- `resume_subscription` from the source: like `cancel_subscription`
with target status `Active`. -/
def resume_subscription (subscription_id : Nat) (authorizer : Address)
    (authd : Bool) (s : VaultState) : Outcome Unit :=
  if ¬ authd then Outcome.trap
  else
    match getRec s.subs subscription_id with
    | none => Outcome.err Error.NotFound s
    | some sub =>
        match validate_status_transition sub.status .Active with
        | .error e => Outcome.err e s
        | .ok _ =>
            let sub2 := { sub with status := SubscriptionStatus.Active }
            Outcome.ok ()
              { s with subs := setRec s.subs subscription_id sub2 }

/-- `withdraw_merchant_funds` from the source: authorization only; the
body is a TODO stub performing no storage access. -/
def withdraw_merchant_funds (merchant : Address) (amount : Int)
    (authd : Bool) (s : VaultState) : Outcome Unit :=
  if ¬ authd then Outcome.trap else Outcome.ok () s

/-- `get_subscription` from the source. -/
def get_subscription (subscription_id : Nat) (s : VaultState) :
    Outcome Subscription :=
  match getRec s.subs subscription_id with
  | none => Outcome.err Error.NotFound s
  | some sub => Outcome.ok sub s

/-- One public invocation of the contract, with its arguments, the
ledger timestamp at call time (`now`) and the host's authorization
verdict for the `require_auth` call it performs (`authd`). -/
inductive Op where
  | opInit (token admin : Address) (min_topup : Int)
  | opSetMinTopup (admin : Address) (min_topup : Int) (authd : Bool)
  | opGetMinTopup
  | opCreate (subscriber merchant : Address) (amount : Int)
      (interval_seconds : Nat) (usage_enabled : Bool) (now : Nat)
      (authd : Bool)
  | opDeposit (id : Nat) (subscriber : Address) (amount : Int)
      (authd : Bool)
  | opChargeSub (id : Nat) (now : Nat)
  | opChargeUsage (id : Nat) (usage_amount : Int)
  | opCancel (id : Nat) (authorizer : Address) (authd : Bool)
  | opPause (id : Nat) (authorizer : Address) (authd : Bool)
  | opResume (id : Nat) (authorizer : Address) (authd : Bool)
  | opWithdraw (merchant : Address) (amount : Int) (authd : Bool)
  | opGetSub (id : Nat)
deriving Repr

/-- Forgets an invocation's return value, keeping its outcome shape and
final storage. -/
def Outcome.forget {α : Type} : Outcome α → Outcome Unit
  | .trap => .trap
  | .err e s => .err e s
  | .ok _ s => .ok () s

/-- Runs one invocation against the store. -/
def run : Op → VaultState → Outcome Unit
  | .opInit token admin m, s => init token admin m s
  | .opSetMinTopup admin m authd, s => set_min_topup admin m authd s
  | .opGetMinTopup, s => (get_min_topup s).forget
  | .opCreate sub mer amount iv ue now authd, s =>
      (create_subscription sub mer amount iv ue now authd s).forget
  | .opDeposit id sub amount authd, s =>
      deposit_funds id sub amount authd s
  | .opChargeSub id now, s => charge_subscription id now s
  | .opChargeUsage id amount, s => charge_usage id amount s
  | .opCancel id a authd, s => cancel_subscription id a authd s
  | .opPause id a authd, s => pause_subscription id a authd s
  | .opResume id a authd, s => resume_subscription id a authd s
  | .opWithdraw mer amount authd, s =>
      withdraw_merchant_funds mer amount authd s
  | .opGetSub id, s => (get_subscription id s).forget

/-- The storage state after an invocation: its final state on success,
the pre-call state otherwise (the host reverts on error and trap). -/
def applyOp (op : Op) (s : VaultState) : VaultState :=
  match run op s with
  | .ok _ s' => s'
  | .err _ _ => s
  | .trap => s

/-- Storage of a freshly deployed contract: every key absent. -/
def emptyState : VaultState :=
  { token := none, admin := none, min_topup := none, next_id := none,
    subs := [] }

/-- The states reachable from a fresh deployment by any sequence of
public invocations. -/
inductive Reachable : VaultState → Prop where
  | base : Reachable emptyState
  | step (s : VaultState) (op : Op) : Reachable s → Reachable (applyOp op s)

/-- The inductive store invariant: every stored record has a
non-negative prepaid balance, and every stored key is below the id
allocator, so a fresh id never overwrites a live record. -/
def StoreInv (s : VaultState) : Prop :=
  ∀ id r, getRec s.subs id = some r →
    0 ≤ r.prepaid_balance ∧ id < nextIdVal s

/-- The two operations that write the config keys `admin` and
`min_topup`. -/
def Op.mutatesConfig : Op → Bool
  | Op.opInit _ _ _ => true
  | Op.opSetMinTopup _ _ _ => true
  | _ => false

/-- Modelled from the spec: the per-item result record of
`batch_charge` (§4.3), `{success: bool, error_code: int}`; a successful
slot carries code 0. -/
structure ChargeResult where
  success : Bool
  error_code : Nat
deriving DecidableEq, Repr

/-- Modelled from the spec: `batch_charge` itself is absent from the
source (`lib.rs` exposes no such entrypoint).  §4.3 specifies that it
processes the ids in input order, invoking the interval-charge logic —
the source's `charge_subscription` — per id independently, capturing
each item's business-rule error in that item's result slot without
aborting or rolling back the other items (an erroring sub-call is
reverted, so the next item starts from the unchanged state).  A Rust
panic inside an item — the overflow `.expect` of `charge_subscription`
— cannot be captured as an error code and traps the whole call.  The
call-level admin-authorization check is outside this model. -/
def batch_charge (ids : List Nat) (now : Nat) (s : VaultState) :
    Outcome (List ChargeResult) :=
  match ids with
  | [] => Outcome.ok [] s
  | id :: rest =>
      match charge_subscription id now s with
      | Outcome.trap => Outcome.trap
      | Outcome.err e _ =>
          match batch_charge rest now s with
          | Outcome.trap => Outcome.trap
          | Outcome.err e2 s2 => Outcome.err e2 s2
          | Outcome.ok slots s2 =>
              Outcome.ok ({ success := false, error_code := e.code } :: slots)
                s2
      | Outcome.ok _ s1 =>
          match batch_charge rest now s1 with
          | Outcome.trap => Outcome.trap
          | Outcome.err e2 s2 => Outcome.err e2 s2
          | Outcome.ok slots s2 =>
              Outcome.ok ({ success := true, error_code := 0 } :: slots) s2

/-- Prepends one result slot to a batch outcome. -/
def consSlot (c : ChargeResult) :
    Outcome (List ChargeResult) → Outcome (List ChargeResult)
  | Outcome.trap => Outcome.trap
  | Outcome.err e s => Outcome.err e s
  | Outcome.ok slots s => Outcome.ok (c :: slots) s

/-- Concrete example record: active, 10-second interval, empty balance,
metering enabled. -/
def exRec0 : Subscription :=
  { subscriber := 1, merchant := 2, amount := 5, interval_seconds := 10,
    last_payment_timestamp := 0, status := .Active, prepaid_balance := 0,
    usage_enabled := true }

/-- Concrete example record: active with a positive balance. -/
def exRecBal : Subscription :=
  { subscriber := 1, merchant := 2, amount := 5, interval_seconds := 10,
    last_payment_timestamp := 0, status := .Active, prepaid_balance := 7,
    usage_enabled := true }

/-- Concrete example record whose next charge time overflows `u64`. -/
def exRecOv : Subscription :=
  { subscriber := 1, merchant := 2, amount := 5, interval_seconds := 1,
    last_payment_timestamp := 18446744073709551615, status := .Active,
    prepaid_balance := 100, usage_enabled := false }

/-- Concrete example state holding `exRec0` at id 0. -/
def exState0 : VaultState :=
  { token := none, admin := none, min_topup := none, next_id := some 1,
    subs := [(0, exRec0)] }

/-- Concrete example state holding `exRecBal` at id 0. -/
def exStateBal : VaultState :=
  { token := none, admin := none, min_topup := none, next_id := some 1,
    subs := [(0, exRecBal)] }

/-- Concrete example state with a configured minimum top-up of 5 and
`exRec0` at id 0. -/
def exStateMin : VaultState :=
  { token := none, admin := none, min_topup := some 5, next_id := some 1,
    subs := [(0, exRec0)] }

/-- Concrete example state holding a chargeable record at id 0 and an
overflowing one at id 1. -/
def exStateB : VaultState :=
  { token := none, admin := none, min_topup := none, next_id := some 2,
    subs := [(0, exRec0), (1, exRecOv)] }

/-- `exStateB` after a successful interval charge of id 0 at time 50. -/
def exStateB2 : VaultState :=
  setSub exStateB 0 ({ exRec0 with last_payment_timestamp := 50 })

/-- The state created by the first example invocation: one subscription
created by principal 1 at time 0. -/
def exStateW : VaultState :=
  applyOp (Op.opCreate 1 2 5 10 true 0 true) emptyState

/-- The config state left by `init(token 3, admin 1, min_topup 5)` on a
fresh deployment. -/
def exStateI : VaultState := applyOp (Op.opInit 3 1 5) emptyState

theorem getRec_setRec_self (l : List (Nat × Subscription)) (id : Nat)
    (r : Subscription) : getRec (setRec l id r) id = some r := by
  induction l with
  | nil => simp [setRec, getRec]
  | cons kv t ih =>
      obtain ⟨k, v⟩ := kv
      by_cases hk : k = id
      · simp [setRec, hk, getRec]
      · simp [setRec, hk, getRec, ih]

theorem getRec_setRec_ne (l : List (Nat × Subscription)) (id j : Nat)
    (r : Subscription) (hne : j ≠ id) :
    getRec (setRec l id r) j = getRec l j := by
  induction l with
  | nil => simp [setRec, getRec, Ne.symm hne]
  | cons kv t ih =>
      obtain ⟨k, v⟩ := kv
      by_cases hk : k = id
      · subst hk
        simp [setRec, getRec, Ne.symm hne]
      · simp only [setRec, if_neg hk, getRec]
        by_cases hj : k = j
        · simp [hj]
        · simp [hj, ih]

theorem can_transition_refl (a : SubscriptionStatus) :
    can_transition a a = true := by
  cases a <;> rfl

theorem can_transition_of_validate_ok {a b : SubscriptionStatus} {u : Unit}
    (h : validate_status_transition a b = Except.ok u) :
    can_transition a b = true := by
  simp [can_transition, h]

theorem applyOp_of_ok (op : Op) {s s' : VaultState} {u : Unit}
    (h : run op s = Outcome.ok u s') : applyOp op s = s' := by
  simp [applyOp, h]

theorem applyOp_of_err (op : Op) {s s' : VaultState} {e : Error}
    (h : run op s = Outcome.err e s') : applyOp op s = s := by
  simp [applyOp, h]

theorem applyOp_of_trap (op : Op) {s : VaultState}
    (h : run op s = Outcome.trap) : applyOp op s = s := by
  simp [applyOp, h]

theorem forget_ok {A : Type} {o : Outcome A} {a : A} {s' : VaultState}
    (h : o = Outcome.ok a s') : o.forget = Outcome.ok () s' := by
  rw [h]; rfl

theorem forget_err {A : Type} {o : Outcome A} {e : Error} {s' : VaultState}
    (h : o = Outcome.err e s') : o.forget = Outcome.err e s' := by
  rw [h]; rfl

theorem forget_trap {A : Type} {o : Outcome A}
    (h : o = Outcome.trap) : o.forget = Outcome.trap := by
  rw [h]; rfl

/-- `init` always succeeds, overwriting the three config keys. -/
theorem init_eq (token admin : Address) (m : Int) (s : VaultState) :
    init token admin m s =
      Outcome.ok () { s with token := some token, admin := some admin,
                             min_topup := some m } := rfl

/-- Full case analysis of `set_min_topup`. -/
theorem set_min_topup_cases (admin : Address) (m : Int) (authd : Bool)
    (s : VaultState) :
    (authd = false ∧ set_min_topup admin m authd s = Outcome.trap) ∨
    (authd = true ∧ s.admin = none ∧
      set_min_topup admin m authd s = Outcome.err Error.NotFound s) ∨
    (authd = true ∧ ∃ st, s.admin = some st ∧ admin ≠ st ∧
      set_min_topup admin m authd s = Outcome.err Error.Unauthorized s) ∨
    (authd = true ∧ s.admin = some admin ∧
      set_min_topup admin m authd s =
        Outcome.ok () { s with min_topup := some m }) := by
  cases authd with
  | false => exact Or.inl ⟨rfl, rfl⟩
  | true =>
      cases hadm : s.admin with
      | none =>
          refine Or.inr (Or.inl ⟨rfl, rfl, ?_⟩)
          simp [set_min_topup, hadm]
      | some st =>
          by_cases he : admin = st
          · subst he
            refine Or.inr (Or.inr (Or.inr ⟨rfl, rfl, ?_⟩))
            simp [set_min_topup, hadm]
          · refine Or.inr (Or.inr (Or.inl ⟨rfl, st, rfl, he, ?_⟩))
            simp [set_min_topup, hadm, he]

/-- Full case analysis of `get_min_topup`. -/
theorem get_min_topup_cases (s : VaultState) :
    (s.min_topup = none ∧
      get_min_topup s = Outcome.err Error.NotFound s) ∨
    (∃ m, s.min_topup = some m ∧ get_min_topup s = Outcome.ok m s) := by
  cases hm : s.min_topup with
  | none => exact Or.inl ⟨rfl, by simp [get_min_topup, hm]⟩
  | some m => exact Or.inr ⟨m, rfl, by simp [get_min_topup, hm]⟩

/-- Full case analysis of `create_subscription`. -/
theorem create_subscription_cases (subscriber merchant : Address)
    (amount : Int) (iv : Nat) (ue : Bool) (now : Nat) (authd : Bool)
    (s : VaultState) :
    (authd = false ∧
      create_subscription subscriber merchant amount iv ue now authd s =
        Outcome.trap) ∨
    (authd = true ∧
      create_subscription subscriber merchant amount iv ue now authd s =
        Outcome.ok (nextIdVal s)
          { s with next_id := some (nextIdVal s + 1),
                   subs := setRec s.subs (nextIdVal s)
                     { subscriber := subscriber, merchant := merchant,
                       amount := amount, interval_seconds := iv,
                       last_payment_timestamp := now, status := .Active,
                       prepaid_balance := 0, usage_enabled := ue } }) := by
  cases authd with
  | false => exact Or.inl ⟨rfl, rfl⟩
  | true => exact Or.inr ⟨rfl, rfl⟩

/-- Full case analysis of `deposit_funds`: the success path writes
nothing (the balance credit is a TODO stub in the source). -/
theorem deposit_funds_cases (id : Nat) (subscriber : Address)
    (amount : Int) (authd : Bool) (s : VaultState) :
    (authd = false ∧
      deposit_funds id subscriber amount authd s = Outcome.trap) ∨
    (authd = true ∧ s.min_topup = none ∧
      deposit_funds id subscriber amount authd s =
        Outcome.err Error.NotFound s) ∨
    (authd = true ∧ ∃ m, s.min_topup = some m ∧ amount < m ∧
      deposit_funds id subscriber amount authd s =
        Outcome.err Error.BelowMinimumTopup s) ∨
    (authd = true ∧ ∃ m, s.min_topup = some m ∧ m ≤ amount ∧
      deposit_funds id subscriber amount authd s = Outcome.ok () s) := by
  cases authd with
  | false => exact Or.inl ⟨rfl, rfl⟩
  | true =>
      cases hm : s.min_topup with
      | none =>
          refine Or.inr (Or.inl ⟨rfl, rfl, ?_⟩)
          simp [deposit_funds, hm]
      | some m =>
          by_cases hlt : amount < m
          · refine Or.inr (Or.inr (Or.inl ⟨rfl, m, rfl, hlt, ?_⟩))
            simp [deposit_funds, hm, hlt]
          · refine Or.inr (Or.inr (Or.inr ⟨rfl, m, rfl, by omega, ?_⟩))
            simp [deposit_funds, hm, hlt]

/-- Full case analysis of `charge_subscription`, the interval charge:
the success path advances only `last_payment_timestamp` (the balance
deduction is a TODO stub in the source), and a `u64` overflow of
`last_payment_timestamp + interval_seconds` traps. -/
theorem charge_subscription_cases (id now : Nat) (s : VaultState) :
    (getRec s.subs id = none ∧
      charge_subscription id now s = Outcome.err Error.NotFound s) ∨
    (∃ sub, getRec s.subs id = some sub ∧
      sub.status ≠ SubscriptionStatus.Active ∧
      charge_subscription id now s = Outcome.err Error.NotActive s) ∨
    (∃ sub, getRec s.subs id = some sub ∧
      sub.status = SubscriptionStatus.Active ∧
      U64_MOD ≤ sub.last_payment_timestamp + sub.interval_seconds ∧
      charge_subscription id now s = Outcome.trap) ∨
    (∃ sub, getRec s.subs id = some sub ∧
      sub.status = SubscriptionStatus.Active ∧
      sub.last_payment_timestamp + sub.interval_seconds < U64_MOD ∧
      now < sub.last_payment_timestamp + sub.interval_seconds ∧
      charge_subscription id now s = Outcome.err Error.IntervalNotElapsed s) ∨
    (∃ sub, getRec s.subs id = some sub ∧
      sub.status = SubscriptionStatus.Active ∧
      sub.last_payment_timestamp + sub.interval_seconds < U64_MOD ∧
      sub.last_payment_timestamp + sub.interval_seconds ≤ now ∧
      charge_subscription id now s = Outcome.ok ()
        (setSub s id ({ sub with last_payment_timestamp := now }))) := by
  cases hg : getRec s.subs id with
  | none =>
      refine Or.inl ⟨rfl, ?_⟩
      simp [charge_subscription, hg]
  | some sub =>
      by_cases hst : sub.status = SubscriptionStatus.Active
      · by_cases hov : U64_MOD ≤
            sub.last_payment_timestamp + sub.interval_seconds
        · refine Or.inr (Or.inr (Or.inl ⟨sub, rfl, hst, hov, ?_⟩))
          simp [charge_subscription, hg, hst, hov]
        · by_cases hel : now <
              sub.last_payment_timestamp + sub.interval_seconds
          · refine Or.inr (Or.inr (Or.inr (Or.inl
              ⟨sub, rfl, hst, by omega, hel, ?_⟩)))
            simp [charge_subscription, hg, hst, hov, hel]
          · refine Or.inr (Or.inr (Or.inr (Or.inr
              ⟨sub, rfl, hst, by omega, by omega, ?_⟩)))
            simp [charge_subscription, setSub, hg, hst, hov, hel]
      · refine Or.inr (Or.inl ⟨sub, rfl, hst, ?_⟩)
        simp [charge_subscription, hg, hst]

/-- Full case analysis of `charge_usage`. -/
theorem charge_usage_cases (id : Nat) (amt : Int) (s : VaultState) :
    (getRec s.subs id = none ∧
      charge_usage id amt s = Outcome.err Error.NotFound s) ∨
    (∃ sub, getRec s.subs id = some sub ∧
      sub.status ≠ SubscriptionStatus.Active ∧
      charge_usage id amt s = Outcome.err Error.NotActive s) ∨
    (∃ sub, getRec s.subs id = some sub ∧
      sub.status = SubscriptionStatus.Active ∧ sub.usage_enabled = false ∧
      charge_usage id amt s = Outcome.err Error.UsageNotEnabled s) ∨
    (∃ sub, getRec s.subs id = some sub ∧
      sub.status = SubscriptionStatus.Active ∧ sub.usage_enabled = true ∧
      amt ≤ 0 ∧ charge_usage id amt s = Outcome.err Error.InvalidAmount s) ∨
    (∃ sub, getRec s.subs id = some sub ∧
      sub.status = SubscriptionStatus.Active ∧ sub.usage_enabled = true ∧
      0 < amt ∧ sub.prepaid_balance < amt ∧
      charge_usage id amt s =
        Outcome.err Error.InsufficientPrepaidBalance s) ∨
    (∃ sub, getRec s.subs id = some sub ∧
      sub.status = SubscriptionStatus.Active ∧ sub.usage_enabled = true ∧
      0 < amt ∧ amt ≤ sub.prepaid_balance ∧
      charge_usage id amt s = Outcome.ok ()
        (setSub s id
          ({ sub with prepaid_balance := sub.prepaid_balance - amt,
                      status := if sub.prepaid_balance - amt = 0 then
                          SubscriptionStatus.InsufficientBalance
                        else sub.status }))) := by
  cases hg : getRec s.subs id with
  | none =>
      refine Or.inl ⟨rfl, ?_⟩
      simp [charge_usage, hg]
  | some sub =>
      by_cases hst : sub.status = SubscriptionStatus.Active
      · by_cases hue : sub.usage_enabled
        · by_cases hpos : amt ≤ 0
          · refine Or.inr (Or.inr (Or.inr (Or.inl
              ⟨sub, rfl, hst, hue, hpos, ?_⟩)))
            simp [charge_usage, hg, hst, hue, hpos]
          · by_cases hbal : sub.prepaid_balance < amt
            · refine Or.inr (Or.inr (Or.inr (Or.inr (Or.inl
                ⟨sub, rfl, hst, hue, by omega, hbal, ?_⟩))))
              simp [charge_usage, hg, hst, hue, hpos, hbal]
            · refine Or.inr (Or.inr (Or.inr (Or.inr (Or.inr
                ⟨sub, rfl, hst, hue, by omega, by omega, ?_⟩))))
              simp [charge_usage, setSub, hg, hst, hue, hpos, hbal]
        · refine Or.inr (Or.inr (Or.inl ⟨sub, rfl, hst, by simp [hue], ?_⟩))
          simp [charge_usage, hg, hst, hue]
      · refine Or.inr (Or.inl ⟨sub, rfl, hst, ?_⟩)
        simp [charge_usage, hg, hst]

/-- The only error value `validate_status_transition` produces. -/
theorem validate_error_eq (a b : SubscriptionStatus) (e : Error)
    (h : validate_status_transition a b = Except.error e) :
    e = Error.InvalidStatusTransition := by
  cases a <;> cases b <;> simp [validate_status_transition] at h <;>
    (try exact h.symm) <;> (try exact h)

/-- Full case analysis of `cancel_subscription`: it validates the
transition to `Cancelled` and writes only the status field. -/
theorem cancel_subscription_cases (id : Nat) (a : Address) (authd : Bool)
    (s : VaultState) :
    (authd = false ∧ cancel_subscription id a authd s = Outcome.trap) ∨
    (authd = true ∧ getRec s.subs id = none ∧
      cancel_subscription id a authd s = Outcome.err Error.NotFound s) ∨
    (authd = true ∧ ∃ sub, getRec s.subs id = some sub ∧
      validate_status_transition sub.status SubscriptionStatus.Cancelled =
        Except.error Error.InvalidStatusTransition ∧
      cancel_subscription id a authd s =
        Outcome.err Error.InvalidStatusTransition s) ∨
    (authd = true ∧ ∃ sub, getRec s.subs id = some sub ∧
      validate_status_transition sub.status SubscriptionStatus.Cancelled =
        Except.ok () ∧
      cancel_subscription id a authd s = Outcome.ok ()
        (setSub s id ({ sub with status := SubscriptionStatus.Cancelled }))) := by
  cases authd with
  | false => exact Or.inl ⟨rfl, rfl⟩
  | true =>
      cases hg : getRec s.subs id with
      | none =>
          refine Or.inr (Or.inl ⟨rfl, rfl, ?_⟩)
          simp [cancel_subscription, hg]
      | some sub =>
          cases hv : validate_status_transition sub.status
              SubscriptionStatus.Cancelled with
          | error e =>
              have he := validate_error_eq _ _ _ hv
              subst he
              refine Or.inr (Or.inr (Or.inl ⟨rfl, sub, rfl, hv, ?_⟩))
              simp [cancel_subscription, hg, hv]
          | ok u =>
              obtain ⟨⟩ := u
              refine Or.inr (Or.inr (Or.inr ⟨rfl, sub, rfl, hv, ?_⟩))
              simp [cancel_subscription, setSub, hg, hv]

/-- Full case analysis of `pause_subscription`: it validates the
transition to `Paused` and writes only the status field. -/
theorem pause_subscription_cases (id : Nat) (a : Address) (authd : Bool)
    (s : VaultState) :
    (authd = false ∧ pause_subscription id a authd s = Outcome.trap) ∨
    (authd = true ∧ getRec s.subs id = none ∧
      pause_subscription id a authd s = Outcome.err Error.NotFound s) ∨
    (authd = true ∧ ∃ sub, getRec s.subs id = some sub ∧
      validate_status_transition sub.status SubscriptionStatus.Paused =
        Except.error Error.InvalidStatusTransition ∧
      pause_subscription id a authd s =
        Outcome.err Error.InvalidStatusTransition s) ∨
    (authd = true ∧ ∃ sub, getRec s.subs id = some sub ∧
      validate_status_transition sub.status SubscriptionStatus.Paused =
        Except.ok () ∧
      pause_subscription id a authd s = Outcome.ok ()
        (setSub s id ({ sub with status := SubscriptionStatus.Paused }))) := by
  cases authd with
  | false => exact Or.inl ⟨rfl, rfl⟩
  | true =>
      cases hg : getRec s.subs id with
      | none =>
          refine Or.inr (Or.inl ⟨rfl, rfl, ?_⟩)
          simp [pause_subscription, hg]
      | some sub =>
          cases hv : validate_status_transition sub.status
              SubscriptionStatus.Paused with
          | error e =>
              have he := validate_error_eq _ _ _ hv
              subst he
              refine Or.inr (Or.inr (Or.inl ⟨rfl, sub, rfl, hv, ?_⟩))
              simp [pause_subscription, hg, hv]
          | ok u =>
              obtain ⟨⟩ := u
              refine Or.inr (Or.inr (Or.inr ⟨rfl, sub, rfl, hv, ?_⟩))
              simp [pause_subscription, setSub, hg, hv]

/-- Full case analysis of `resume_subscription`: it validates the
transition to `Active` and writes only the status field. -/
theorem resume_subscription_cases (id : Nat) (a : Address) (authd : Bool)
    (s : VaultState) :
    (authd = false ∧ resume_subscription id a authd s = Outcome.trap) ∨
    (authd = true ∧ getRec s.subs id = none ∧
      resume_subscription id a authd s = Outcome.err Error.NotFound s) ∨
    (authd = true ∧ ∃ sub, getRec s.subs id = some sub ∧
      validate_status_transition sub.status SubscriptionStatus.Active =
        Except.error Error.InvalidStatusTransition ∧
      resume_subscription id a authd s =
        Outcome.err Error.InvalidStatusTransition s) ∨
    (authd = true ∧ ∃ sub, getRec s.subs id = some sub ∧
      validate_status_transition sub.status SubscriptionStatus.Active =
        Except.ok () ∧
      resume_subscription id a authd s = Outcome.ok ()
        (setSub s id ({ sub with status := SubscriptionStatus.Active }))) := by
  cases authd with
  | false => exact Or.inl ⟨rfl, rfl⟩
  | true =>
      cases hg : getRec s.subs id with
      | none =>
          refine Or.inr (Or.inl ⟨rfl, rfl, ?_⟩)
          simp [resume_subscription, hg]
      | some sub =>
          cases hv : validate_status_transition sub.status
              SubscriptionStatus.Active with
          | error e =>
              have he := validate_error_eq _ _ _ hv
              subst he
              refine Or.inr (Or.inr (Or.inl ⟨rfl, sub, rfl, hv, ?_⟩))
              simp [resume_subscription, hg, hv]
          | ok u =>
              obtain ⟨⟩ := u
              refine Or.inr (Or.inr (Or.inr ⟨rfl, sub, rfl, hv, ?_⟩))
              simp [resume_subscription, setSub, hg, hv]

/-- Full case analysis of `get_subscription`. -/
theorem get_subscription_cases (id : Nat) (s : VaultState) :
    (getRec s.subs id = none ∧
      get_subscription id s = Outcome.err Error.NotFound s) ∨
    (∃ sub, getRec s.subs id = some sub ∧
      get_subscription id s = Outcome.ok sub s) := by
  cases hg : getRec s.subs id with
  | none => exact Or.inl ⟨rfl, by simp [get_subscription, hg]⟩
  | some sub => exact Or.inr ⟨sub, rfl, by simp [get_subscription, hg]⟩

/-- Full case analysis of `withdraw_merchant_funds`: a stub that never
touches storage. -/
theorem withdraw_cases (mer : Address) (amount : Int) (authd : Bool)
    (s : VaultState) :
    (authd = false ∧
      withdraw_merchant_funds mer amount authd s = Outcome.trap) ∨
    (authd = true ∧
      withdraw_merchant_funds mer amount authd s = Outcome.ok () s) := by
  cases authd with
  | false => exact Or.inl ⟨rfl, rfl⟩
  | true => exact Or.inr ⟨rfl, rfl⟩

theorem storeInv_empty : StoreInv emptyState := by
  intro id r h
  simp [emptyState, getRec] at h

theorem storeInv_congr {s s' : VaultState} (h : StoreInv s)
    (hsubs : s'.subs = s.subs) (hnext : s'.next_id = s.next_id) :
    StoreInv s' := by
  intro id r hr
  rw [hsubs] at hr
  rcases h id r hr with ⟨hb, hlt⟩
  refine ⟨hb, ?_⟩
  rw [nextIdVal, hnext]
  exact hlt

theorem storeInv_setSub {s : VaultState} {id0 : Nat} {r0 : Subscription}
    (h : StoreInv s) (hex : id0 < nextIdVal s)
    (hb : 0 ≤ r0.prepaid_balance) : StoreInv (setSub s id0 r0) := by
  intro id r hr
  have hr' : getRec (setRec s.subs id0 r0) id = some r := hr
  have hnext : nextIdVal (setSub s id0 r0) = nextIdVal s := rfl
  rw [hnext]
  by_cases hid : id = id0
  · subst hid
    rw [getRec_setRec_self] at hr'
    cases hr'
    exact ⟨hb, hex⟩
  · rw [getRec_setRec_ne _ _ _ _ hid] at hr'
    exact h id r hr'

theorem storeInv_applyOp (s : VaultState) (op : Op) (h : StoreInv s) :
    StoreInv (applyOp op s) := by
  cases op with
  | opInit token admin m =>
      rw [applyOp_of_ok (Op.opInit token admin m) rfl]
      exact storeInv_congr h rfl rfl
  | opSetMinTopup admin m authd =>
      rcases set_min_topup_cases admin m authd s with
        ⟨ha, he⟩ | ⟨ha, hn, he⟩ | ⟨ha, st, hs, hne, he⟩ | ⟨ha, hs, he⟩ <;>
        subst ha
      · rw [applyOp_of_trap (Op.opSetMinTopup admin m false) he]
        exact h
      · rw [applyOp_of_err (Op.opSetMinTopup admin m true) he]
        exact h
      · rw [applyOp_of_err (Op.opSetMinTopup admin m true) he]
        exact h
      · rw [applyOp_of_ok (Op.opSetMinTopup admin m true) he]
        exact storeInv_congr h rfl rfl
  | opGetMinTopup =>
      rcases get_min_topup_cases s with ⟨hn, he⟩ | ⟨m, hm, he⟩
      · rw [applyOp_of_err Op.opGetMinTopup (forget_err he)]
        exact h
      · rw [applyOp_of_ok Op.opGetMinTopup (forget_ok he)]
        exact h
  | opCreate subscriber merchant amount iv ue now authd =>
      rcases create_subscription_cases subscriber merchant amount iv ue now
        authd s with ⟨ha, he⟩ | ⟨ha, he⟩ <;> subst ha
      · rw [applyOp_of_trap (Op.opCreate subscriber merchant amount iv ue now
          false) (forget_trap he)]
        exact h
      · rw [applyOp_of_ok (Op.opCreate subscriber merchant amount iv ue now
          true) (forget_ok he)]
        intro id r hr
        have hr' : getRec (setRec s.subs (nextIdVal s)
            { subscriber := subscriber, merchant := merchant,
              amount := amount, interval_seconds := iv,
              last_payment_timestamp := now, status := .Active,
              prepaid_balance := 0, usage_enabled := ue }) id = some r := hr
        by_cases hid : id = nextIdVal s
        · subst hid
          rw [getRec_setRec_self] at hr'
          cases hr'
          refine ⟨le_refl 0, ?_⟩
          show nextIdVal s < nextIdVal s + 1
          omega
        · rw [getRec_setRec_ne _ _ _ _ hid] at hr'
          rcases h id r hr' with ⟨hb, hlt⟩
          refine ⟨hb, ?_⟩
          show id < nextIdVal s + 1
          omega
  | opDeposit id0 subscriber amount authd =>
      rcases deposit_funds_cases id0 subscriber amount authd s with
        ⟨ha, he⟩ | ⟨ha, hn, he⟩ | ⟨ha, m, hm, hlt, he⟩ | ⟨ha, m, hm, hle, he⟩ <;>
        subst ha
      · rw [applyOp_of_trap (Op.opDeposit id0 subscriber amount false) he]
        exact h
      · rw [applyOp_of_err (Op.opDeposit id0 subscriber amount true) he]
        exact h
      · rw [applyOp_of_err (Op.opDeposit id0 subscriber amount true) he]
        exact h
      · rw [applyOp_of_ok (Op.opDeposit id0 subscriber amount true) he]
        exact h
  | opChargeSub id0 now =>
      rcases charge_subscription_cases id0 now s with
        ⟨hg, he⟩ | ⟨sub, hg, hst, he⟩ | ⟨sub, hg, hst, hov, he⟩ |
        ⟨sub, hg, hst, hov, hel, he⟩ | ⟨sub, hg, hst, hov, hel, he⟩
      · rw [applyOp_of_err (Op.opChargeSub id0 now) he]
        exact h
      · rw [applyOp_of_err (Op.opChargeSub id0 now) he]
        exact h
      · rw [applyOp_of_trap (Op.opChargeSub id0 now) he]
        exact h
      · rw [applyOp_of_err (Op.opChargeSub id0 now) he]
        exact h
      · rw [applyOp_of_ok (Op.opChargeSub id0 now) he]
        exact storeInv_setSub h (h id0 sub hg).2 (h id0 sub hg).1
  | opChargeUsage id0 amt =>
      rcases charge_usage_cases id0 amt s with
        ⟨hg, he⟩ | ⟨sub, hg, hst, he⟩ | ⟨sub, hg, hst, hue, he⟩ |
        ⟨sub, hg, hst, hue, hpos, he⟩ | ⟨sub, hg, hst, hue, hpos, hbal, he⟩ |
        ⟨sub, hg, hst, hue, hpos, hbal, he⟩
      · rw [applyOp_of_err (Op.opChargeUsage id0 amt) he]
        exact h
      · rw [applyOp_of_err (Op.opChargeUsage id0 amt) he]
        exact h
      · rw [applyOp_of_err (Op.opChargeUsage id0 amt) he]
        exact h
      · rw [applyOp_of_err (Op.opChargeUsage id0 amt) he]
        exact h
      · rw [applyOp_of_err (Op.opChargeUsage id0 amt) he]
        exact h
      · rw [applyOp_of_ok (Op.opChargeUsage id0 amt) he]
        refine storeInv_setSub h (h id0 sub hg).2 ?_
        show (0 : Int) ≤ sub.prepaid_balance - amt
        have := (h id0 sub hg).1
        omega
  | opCancel id0 a authd =>
      rcases cancel_subscription_cases id0 a authd s with
        ⟨ha, he⟩ | ⟨ha, hn, he⟩ | ⟨ha, sub, hg, hv, he⟩ | ⟨ha, sub, hg, hv, he⟩ <;>
        subst ha
      · rw [applyOp_of_trap (Op.opCancel id0 a false) he]
        exact h
      · rw [applyOp_of_err (Op.opCancel id0 a true) he]
        exact h
      · rw [applyOp_of_err (Op.opCancel id0 a true) he]
        exact h
      · rw [applyOp_of_ok (Op.opCancel id0 a true) he]
        exact storeInv_setSub h (h id0 sub hg).2 (h id0 sub hg).1
  | opPause id0 a authd =>
      rcases pause_subscription_cases id0 a authd s with
        ⟨ha, he⟩ | ⟨ha, hn, he⟩ | ⟨ha, sub, hg, hv, he⟩ | ⟨ha, sub, hg, hv, he⟩ <;>
        subst ha
      · rw [applyOp_of_trap (Op.opPause id0 a false) he]
        exact h
      · rw [applyOp_of_err (Op.opPause id0 a true) he]
        exact h
      · rw [applyOp_of_err (Op.opPause id0 a true) he]
        exact h
      · rw [applyOp_of_ok (Op.opPause id0 a true) he]
        exact storeInv_setSub h (h id0 sub hg).2 (h id0 sub hg).1
  | opResume id0 a authd =>
      rcases resume_subscription_cases id0 a authd s with
        ⟨ha, he⟩ | ⟨ha, hn, he⟩ | ⟨ha, sub, hg, hv, he⟩ | ⟨ha, sub, hg, hv, he⟩ <;>
        subst ha
      · rw [applyOp_of_trap (Op.opResume id0 a false) he]
        exact h
      · rw [applyOp_of_err (Op.opResume id0 a true) he]
        exact h
      · rw [applyOp_of_err (Op.opResume id0 a true) he]
        exact h
      · rw [applyOp_of_ok (Op.opResume id0 a true) he]
        exact storeInv_setSub h (h id0 sub hg).2 (h id0 sub hg).1
  | opWithdraw mer amount authd =>
      rcases withdraw_cases mer amount authd s with ⟨ha, he⟩ | ⟨ha, he⟩ <;>
        subst ha
      · rw [applyOp_of_trap (Op.opWithdraw mer amount false) he]
        exact h
      · rw [applyOp_of_ok (Op.opWithdraw mer amount true) he]
        exact h
  | opGetSub id0 =>
      rcases get_subscription_cases id0 s with ⟨hn, he⟩ | ⟨sub, hg, he⟩
      · rw [applyOp_of_err (Op.opGetSub id0) (forget_err he)]
        exact h
      · rw [applyOp_of_ok (Op.opGetSub id0) (forget_ok he)]
        exact h

theorem reachable_storeInv (s : VaultState) (h : Reachable s) :
    StoreInv s := by
  induction h with
  | base => exact storeInv_empty
  | step s op _ ih => exact storeInv_applyOp s op ih

theorem getRec_some_inj {l : List (Nat × Subscription)} {id : Nat}
    {r r' : Subscription} (h1 : getRec l id = some r)
    (h2 : getRec l id = some r') : r' = r := by
  rw [h1] at h2
  exact (Option.some.inj h2).symm

/-- How one invocation can change one stored record: the status moves
along an edge the state machine accepts (or stays put), the payment
timestamp never decreases, and it changes only when the invocation was
a successful interval charge of that very id. -/
theorem record_step (s : VaultState) (hInv : StoreInv s) (op : Op)
    (id : Nat) (r r' : Subscription)
    (hr : getRec s.subs id = some r)
    (hr' : getRec (applyOp op s).subs id = some r') :
    can_transition r.status r'.status = true ∧
    r.last_payment_timestamp ≤ r'.last_payment_timestamp ∧
    (r'.last_payment_timestamp ≠ r.last_payment_timestamp →
      ∃ now, op = Op.opChargeSub id now ∧
        ∃ s2, run op s = Outcome.ok () s2) := by
  have triv : r' = r →
      can_transition r.status r'.status = true ∧
      r.last_payment_timestamp ≤ r'.last_payment_timestamp ∧
      (r'.last_payment_timestamp ≠ r.last_payment_timestamp →
        ∃ now, op = Op.opChargeSub id now ∧
          ∃ s2, run op s = Outcome.ok () s2) := by
    intro he
    subst he
    exact ⟨can_transition_refl _, le_refl _, fun hne => absurd rfl hne⟩
  cases op with
  | opInit token admin m =>
      rw [applyOp_of_ok (Op.opInit token admin m) rfl] at hr'
      exact triv (getRec_some_inj hr hr')
  | opSetMinTopup admin m authd =>
      rcases set_min_topup_cases admin m authd s with
        ⟨ha, he⟩ | ⟨ha, hn, he⟩ | ⟨ha, st, hs, hne, he⟩ | ⟨ha, hs, he⟩ <;>
        subst ha
      · rw [applyOp_of_trap (Op.opSetMinTopup admin m false) he] at hr'
        exact triv (getRec_some_inj hr hr')
      · rw [applyOp_of_err (Op.opSetMinTopup admin m true) he] at hr'
        exact triv (getRec_some_inj hr hr')
      · rw [applyOp_of_err (Op.opSetMinTopup admin m true) he] at hr'
        exact triv (getRec_some_inj hr hr')
      · rw [applyOp_of_ok (Op.opSetMinTopup admin m true) he] at hr'
        exact triv (getRec_some_inj hr hr')
  | opGetMinTopup =>
      rcases get_min_topup_cases s with ⟨hn, he⟩ | ⟨m, hm, he⟩
      · rw [applyOp_of_err Op.opGetMinTopup (forget_err he)] at hr'
        exact triv (getRec_some_inj hr hr')
      · rw [applyOp_of_ok Op.opGetMinTopup (forget_ok he)] at hr'
        exact triv (getRec_some_inj hr hr')
  | opCreate subscriber merchant amount iv ue now authd =>
      rcases create_subscription_cases subscriber merchant amount iv ue now
        authd s with ⟨ha, he⟩ | ⟨ha, he⟩ <;> subst ha
      · rw [applyOp_of_trap (Op.opCreate subscriber merchant amount iv ue now
          false) (forget_trap he)] at hr'
        exact triv (getRec_some_inj hr hr')
      · rw [applyOp_of_ok (Op.opCreate subscriber merchant amount iv ue now
          true) (forget_ok he)] at hr'
        have hlt := (hInv id r hr).2
        have hid : id ≠ nextIdVal s := by omega
        have hr'' : getRec (setRec s.subs (nextIdVal s)
            { subscriber := subscriber, merchant := merchant,
              amount := amount, interval_seconds := iv,
              last_payment_timestamp := now, status := .Active,
              prepaid_balance := 0, usage_enabled := ue }) id = some r' := hr'
        rw [getRec_setRec_ne _ _ _ _ hid] at hr''
        exact triv (getRec_some_inj hr hr'')
  | opDeposit id0 subscriber amount authd =>
      rcases deposit_funds_cases id0 subscriber amount authd s with
        ⟨ha, he⟩ | ⟨ha, hn, he⟩ | ⟨ha, m, hm, hlt, he⟩ | ⟨ha, m, hm, hle, he⟩ <;>
        subst ha
      · rw [applyOp_of_trap (Op.opDeposit id0 subscriber amount false) he] at hr'
        exact triv (getRec_some_inj hr hr')
      · rw [applyOp_of_err (Op.opDeposit id0 subscriber amount true) he] at hr'
        exact triv (getRec_some_inj hr hr')
      · rw [applyOp_of_err (Op.opDeposit id0 subscriber amount true) he] at hr'
        exact triv (getRec_some_inj hr hr')
      · rw [applyOp_of_ok (Op.opDeposit id0 subscriber amount true) he] at hr'
        exact triv (getRec_some_inj hr hr')
  | opChargeSub id0 now =>
      rcases charge_subscription_cases id0 now s with
        ⟨hg, he⟩ | ⟨sub, hg, hst, he⟩ | ⟨sub, hg, hst, hov, he⟩ |
        ⟨sub, hg, hst, hov, hel, he⟩ | ⟨sub, hg, hst, hov, hel, he⟩
      · rw [applyOp_of_err (Op.opChargeSub id0 now) he] at hr'
        exact triv (getRec_some_inj hr hr')
      · rw [applyOp_of_err (Op.opChargeSub id0 now) he] at hr'
        exact triv (getRec_some_inj hr hr')
      · rw [applyOp_of_trap (Op.opChargeSub id0 now) he] at hr'
        exact triv (getRec_some_inj hr hr')
      · rw [applyOp_of_err (Op.opChargeSub id0 now) he] at hr'
        exact triv (getRec_some_inj hr hr')
      · rw [applyOp_of_ok (Op.opChargeSub id0 now) he] at hr'
        have hr'' : getRec (setRec s.subs id0
            ({ sub with last_payment_timestamp := now })) id = some r' := hr'
        by_cases hid : id = id0
        · subst hid
          rw [hg] at hr
          have hsr : sub = r := Option.some.inj hr
          subst hsr
          rw [getRec_setRec_self] at hr''
          have hrr : r' = { sub with last_payment_timestamp := now } :=
            Option.some.inj hr''.symm
          subst hrr
          refine ⟨can_transition_refl _, by show sub.last_payment_timestamp ≤ now; omega, ?_⟩
          intro hne
          exact ⟨now, rfl, _, he⟩
        · rw [getRec_setRec_ne _ _ _ _ hid] at hr''
          exact triv (getRec_some_inj hr hr'')
  | opChargeUsage id0 amt =>
      rcases charge_usage_cases id0 amt s with
        ⟨hg, he⟩ | ⟨sub, hg, hst, he⟩ | ⟨sub, hg, hst, hue, he⟩ |
        ⟨sub, hg, hst, hue, hpos, he⟩ | ⟨sub, hg, hst, hue, hpos, hbal, he⟩ |
        ⟨sub, hg, hst, hue, hpos, hbal, he⟩
      · rw [applyOp_of_err (Op.opChargeUsage id0 amt) he] at hr'
        exact triv (getRec_some_inj hr hr')
      · rw [applyOp_of_err (Op.opChargeUsage id0 amt) he] at hr'
        exact triv (getRec_some_inj hr hr')
      · rw [applyOp_of_err (Op.opChargeUsage id0 amt) he] at hr'
        exact triv (getRec_some_inj hr hr')
      · rw [applyOp_of_err (Op.opChargeUsage id0 amt) he] at hr'
        exact triv (getRec_some_inj hr hr')
      · rw [applyOp_of_err (Op.opChargeUsage id0 amt) he] at hr'
        exact triv (getRec_some_inj hr hr')
      · rw [applyOp_of_ok (Op.opChargeUsage id0 amt) he] at hr'
        have hr'' : getRec (setRec s.subs id0
            ({ sub with prepaid_balance := sub.prepaid_balance - amt,
                        status := if sub.prepaid_balance - amt = 0 then
                            SubscriptionStatus.InsufficientBalance
                          else sub.status })) id = some r' := hr'
        by_cases hid : id = id0
        · subst hid
          rw [hg] at hr
          have hsr : sub = r := Option.some.inj hr
          subst hsr
          rw [getRec_setRec_self] at hr''
          have hrr := Option.some.inj hr''.symm
          subst hrr
          refine ⟨?_, le_refl _, fun hne => absurd rfl hne⟩
          show can_transition sub.status
            (if sub.prepaid_balance - amt = 0 then
                SubscriptionStatus.InsufficientBalance
              else sub.status) = true
          rw [hst]
          by_cases hz : sub.prepaid_balance - amt = 0
          · rw [if_pos hz]
            rfl
          · rw [if_neg hz]
            rfl
        · rw [getRec_setRec_ne _ _ _ _ hid] at hr''
          exact triv (getRec_some_inj hr hr'')
  | opCancel id0 a authd =>
      rcases cancel_subscription_cases id0 a authd s with
        ⟨ha, he⟩ | ⟨ha, hn, he⟩ | ⟨ha, sub, hg, hv, he⟩ | ⟨ha, sub, hg, hv, he⟩ <;>
        subst ha
      · rw [applyOp_of_trap (Op.opCancel id0 a false) he] at hr'
        exact triv (getRec_some_inj hr hr')
      · rw [applyOp_of_err (Op.opCancel id0 a true) he] at hr'
        exact triv (getRec_some_inj hr hr')
      · rw [applyOp_of_err (Op.opCancel id0 a true) he] at hr'
        exact triv (getRec_some_inj hr hr')
      · rw [applyOp_of_ok (Op.opCancel id0 a true) he] at hr'
        have hr'' : getRec (setRec s.subs id0
            ({ sub with status := SubscriptionStatus.Cancelled })) id
              = some r' := hr'
        by_cases hid : id = id0
        · subst hid
          rw [hg] at hr
          have hsr : sub = r := Option.some.inj hr
          subst hsr
          rw [getRec_setRec_self] at hr''
          have hrr := Option.some.inj hr''.symm
          subst hrr
          exact ⟨can_transition_of_validate_ok hv, le_refl _,
            fun hne => absurd rfl hne⟩
        · rw [getRec_setRec_ne _ _ _ _ hid] at hr''
          exact triv (getRec_some_inj hr hr'')
  | opPause id0 a authd =>
      rcases pause_subscription_cases id0 a authd s with
        ⟨ha, he⟩ | ⟨ha, hn, he⟩ | ⟨ha, sub, hg, hv, he⟩ | ⟨ha, sub, hg, hv, he⟩ <;>
        subst ha
      · rw [applyOp_of_trap (Op.opPause id0 a false) he] at hr'
        exact triv (getRec_some_inj hr hr')
      · rw [applyOp_of_err (Op.opPause id0 a true) he] at hr'
        exact triv (getRec_some_inj hr hr')
      · rw [applyOp_of_err (Op.opPause id0 a true) he] at hr'
        exact triv (getRec_some_inj hr hr')
      · rw [applyOp_of_ok (Op.opPause id0 a true) he] at hr'
        have hr'' : getRec (setRec s.subs id0
            ({ sub with status := SubscriptionStatus.Paused })) id
              = some r' := hr'
        by_cases hid : id = id0
        · subst hid
          rw [hg] at hr
          have hsr : sub = r := Option.some.inj hr
          subst hsr
          rw [getRec_setRec_self] at hr''
          have hrr := Option.some.inj hr''.symm
          subst hrr
          exact ⟨can_transition_of_validate_ok hv, le_refl _,
            fun hne => absurd rfl hne⟩
        · rw [getRec_setRec_ne _ _ _ _ hid] at hr''
          exact triv (getRec_some_inj hr hr'')
  | opResume id0 a authd =>
      rcases resume_subscription_cases id0 a authd s with
        ⟨ha, he⟩ | ⟨ha, hn, he⟩ | ⟨ha, sub, hg, hv, he⟩ | ⟨ha, sub, hg, hv, he⟩ <;>
        subst ha
      · rw [applyOp_of_trap (Op.opResume id0 a false) he] at hr'
        exact triv (getRec_some_inj hr hr')
      · rw [applyOp_of_err (Op.opResume id0 a true) he] at hr'
        exact triv (getRec_some_inj hr hr')
      · rw [applyOp_of_err (Op.opResume id0 a true) he] at hr'
        exact triv (getRec_some_inj hr hr')
      · rw [applyOp_of_ok (Op.opResume id0 a true) he] at hr'
        have hr'' : getRec (setRec s.subs id0
            ({ sub with status := SubscriptionStatus.Active })) id
              = some r' := hr'
        by_cases hid : id = id0
        · subst hid
          rw [hg] at hr
          have hsr : sub = r := Option.some.inj hr
          subst hsr
          rw [getRec_setRec_self] at hr''
          have hrr := Option.some.inj hr''.symm
          subst hrr
          exact ⟨can_transition_of_validate_ok hv, le_refl _,
            fun hne => absurd rfl hne⟩
        · rw [getRec_setRec_ne _ _ _ _ hid] at hr''
          exact triv (getRec_some_inj hr hr'')
  | opWithdraw mer amount authd =>
      rcases withdraw_cases mer amount authd s with ⟨ha, he⟩ | ⟨ha, he⟩ <;>
        subst ha
      · rw [applyOp_of_trap (Op.opWithdraw mer amount false) he] at hr'
        exact triv (getRec_some_inj hr hr')
      · rw [applyOp_of_ok (Op.opWithdraw mer amount true) he] at hr'
        exact triv (getRec_some_inj hr hr')
  | opGetSub id0 =>
      rcases get_subscription_cases id0 s with ⟨hn, he⟩ | ⟨sub, hg, he⟩
      · rw [applyOp_of_err (Op.opGetSub id0) (forget_err he)] at hr'
        exact triv (getRec_some_inj hr hr')
      · rw [applyOp_of_ok (Op.opGetSub id0) (forget_ok he)] at hr'
        exact triv (getRec_some_inj hr hr')

theorem forget_err_inv {A : Type} {o : Outcome A} {e : Error}
    {s' : VaultState} (h : o.forget = Outcome.err e s') :
    o = Outcome.err e s' := by
  cases o with
  | trap => exact Outcome.noConfusion h
  | err e2 s2 =>
      have h' : (Outcome.err e2 s2 : Outcome Unit) = Outcome.err e s' := h
      obtain ⟨h1, h2⟩ := Outcome.err.inj h'
      rw [h1, h2]
  | ok a s2 => exact Outcome.noConfusion h

theorem set_min_topup_err_state {a : Address} {m : Int} {authd : Bool}
    {s s' : VaultState} {e : Error}
    (h : set_min_topup a m authd s = Outcome.err e s') : s' = s := by
  rcases set_min_topup_cases a m authd s with
    ⟨_, he⟩ | ⟨_, _, he⟩ | ⟨_, st, _, _, he⟩ | ⟨_, _, he⟩ <;> rw [he] at h
  all_goals first
    | exact Outcome.noConfusion h
    | exact ((Outcome.err.inj h).2).symm

theorem get_min_topup_err_state {s s' : VaultState} {e : Error}
    (h : get_min_topup s = Outcome.err e s') : s' = s := by
  rcases get_min_topup_cases s with ⟨_, he⟩ | ⟨m, _, he⟩ <;> rw [he] at h
  all_goals first
    | exact Outcome.noConfusion h
    | exact ((Outcome.err.inj h).2).symm

theorem deposit_funds_err_state {id : Nat} {a : Address} {amt : Int}
    {authd : Bool} {s s' : VaultState} {e : Error}
    (h : deposit_funds id a amt authd s = Outcome.err e s') : s' = s := by
  rcases deposit_funds_cases id a amt authd s with
    ⟨_, he⟩ | ⟨_, _, he⟩ | ⟨_, m, _, _, he⟩ | ⟨_, m, _, _, he⟩ <;> rw [he] at h
  all_goals first
    | exact Outcome.noConfusion h
    | exact ((Outcome.err.inj h).2).symm

theorem charge_subscription_err_state {id now : Nat} {s s' : VaultState}
    {e : Error} (h : charge_subscription id now s = Outcome.err e s') :
    s' = s := by
  rcases charge_subscription_cases id now s with
    ⟨_, he⟩ | ⟨sub, _, _, he⟩ | ⟨sub, _, _, _, he⟩ |
    ⟨sub, _, _, _, _, he⟩ | ⟨sub, _, _, _, _, he⟩ <;> rw [he] at h
  all_goals first
    | exact Outcome.noConfusion h
    | exact ((Outcome.err.inj h).2).symm

theorem charge_usage_err_state {id : Nat} {amt : Int} {s s' : VaultState}
    {e : Error} (h : charge_usage id amt s = Outcome.err e s') : s' = s := by
  rcases charge_usage_cases id amt s with
    ⟨_, he⟩ | ⟨sub, _, _, he⟩ | ⟨sub, _, _, _, he⟩ |
    ⟨sub, _, _, _, _, he⟩ | ⟨sub, _, _, _, _, _, he⟩ |
    ⟨sub, _, _, _, _, _, he⟩ <;> rw [he] at h
  all_goals first
    | exact Outcome.noConfusion h
    | exact ((Outcome.err.inj h).2).symm

theorem cancel_subscription_err_state {id : Nat} {a : Address}
    {authd : Bool} {s s' : VaultState} {e : Error}
    (h : cancel_subscription id a authd s = Outcome.err e s') : s' = s := by
  rcases cancel_subscription_cases id a authd s with
    ⟨_, he⟩ | ⟨_, _, he⟩ | ⟨_, sub, _, _, he⟩ | ⟨_, sub, _, _, he⟩ <;>
    rw [he] at h
  all_goals first
    | exact Outcome.noConfusion h
    | exact ((Outcome.err.inj h).2).symm

theorem pause_subscription_err_state {id : Nat} {a : Address}
    {authd : Bool} {s s' : VaultState} {e : Error}
    (h : pause_subscription id a authd s = Outcome.err e s') : s' = s := by
  rcases pause_subscription_cases id a authd s with
    ⟨_, he⟩ | ⟨_, _, he⟩ | ⟨_, sub, _, _, he⟩ | ⟨_, sub, _, _, he⟩ <;>
    rw [he] at h
  all_goals first
    | exact Outcome.noConfusion h
    | exact ((Outcome.err.inj h).2).symm

theorem resume_subscription_err_state {id : Nat} {a : Address}
    {authd : Bool} {s s' : VaultState} {e : Error}
    (h : resume_subscription id a authd s = Outcome.err e s') : s' = s := by
  rcases resume_subscription_cases id a authd s with
    ⟨_, he⟩ | ⟨_, _, he⟩ | ⟨_, sub, _, _, he⟩ | ⟨_, sub, _, _, he⟩ <;>
    rw [he] at h
  all_goals first
    | exact Outcome.noConfusion h
    | exact ((Outcome.err.inj h).2).symm

theorem get_subscription_err_state {id : Nat} {s s' : VaultState}
    {e : Error} (h : get_subscription id s = Outcome.err e s') : s' = s := by
  rcases get_subscription_cases id s with ⟨_, he⟩ | ⟨sub, _, he⟩ <;>
    rw [he] at h
  all_goals first
    | exact Outcome.noConfusion h
    | exact ((Outcome.err.inj h).2).symm

theorem create_subscription_no_err {a b : Address} {amt : Int} {iv : Nat}
    {ue : Bool} {now : Nat} {authd : Bool} {s s' : VaultState} {e : Error}
    (h : create_subscription a b amt iv ue now authd s =
      Outcome.err e s') : False := by
  rcases create_subscription_cases a b amt iv ue now authd s with
    ⟨_, he⟩ | ⟨_, he⟩ <;> rw [he] at h <;> exact Outcome.noConfusion h

theorem withdraw_no_err {a : Address} {amt : Int} {authd : Bool}
    {s s' : VaultState} {e : Error}
    (h : withdraw_merchant_funds a amt authd s = Outcome.err e s') :
    False := by
  rcases withdraw_cases a amt authd s with ⟨_, he⟩ | ⟨_, he⟩ <;>
    rw [he] at h <;> exact Outcome.noConfusion h

end Vault

/-- C3: for every pair of statuses, `validate_status_transition` returns
`Ok` exactly when the statuses are equal or the pair is an edge of the
§4.1 table, and returns `InvalidStatusTransition` for every other pair;
`get_allowed_transitions` returns exactly the table's target set, with
`Cancelled` mapping to the empty set. -/
theorem C3_transition_table_exact :
    (∀ from' to' : Vault.SubscriptionStatus,
      (Vault.validate_status_transition from' to' = Except.ok () ↔
        (from' = to' ∨
          (from' = .Active ∧
            (to' = .Paused ∨ to' = .Cancelled ∨ to' = .InsufficientBalance)) ∨
          (from' = .Paused ∧ (to' = .Active ∨ to' = .Cancelled)) ∨
          (from' = .InsufficientBalance ∧
            (to' = .Active ∨ to' = .Cancelled)))) ∧
      (Vault.validate_status_transition from' to' = Except.ok () ∨
        Vault.validate_status_transition from' to' =
          Except.error Vault.Error.InvalidStatusTransition)) ∧
    Vault.get_allowed_transitions .Active =
      [.Paused, .Cancelled, .InsufficientBalance] ∧
    Vault.get_allowed_transitions .Paused = [.Active, .Cancelled] ∧
    Vault.get_allowed_transitions .InsufficientBalance =
      [.Active, .Cancelled] ∧
    Vault.get_allowed_transitions .Cancelled = [] := by
  refine ⟨?_, rfl, rfl, rfl, rfl⟩
  intro from' to'
  cases from' <;> cases to' <;> simp [Vault.validate_status_transition]

/-- C3 witness: the theorem instantiated at the `Cancelled → Active`
pair, which the table forbids. -/
theorem C3_transition_table_exact_witness :
    Vault.validate_status_transition .Cancelled .Active =
      Except.error Vault.Error.InvalidStatusTransition := by
  rcases (C3_transition_table_exact.1 .Cancelled .Active).2 with h | h
  · exact absurd ((C3_transition_table_exact.1 .Cancelled .Active).1.mp h)
      (by decide)
  · exact h

/-- C1 (code evaluated at the failing input): an interval charge on an
`Active` record whose interval has elapsed but whose prepaid balance
(0) is below `amount` (5) succeeds, advances only the timestamp, and
leaves balance and status untouched — the deduction and the
insufficient-balance report-and-mark path of the claim do not exist in
the source (`// TODO: deduct sub.amount from sub.prepaid_balance`), and
the `Error` enum has no `InsufficientBalance` variant at all. -/
theorem C1_interval_charge_ignores_balance :
    Vault.charge_subscription 0 10 Vault.exState0 = Vault.Outcome.ok ()
      (Vault.setSub Vault.exState0 0
        ({ Vault.exRec0 with last_payment_timestamp := 10 })) ∧
    Vault.getRec (Vault.setSub Vault.exState0 0
        ({ Vault.exRec0 with last_payment_timestamp := 10 })).subs 0 =
      some { subscriber := 1, merchant := 2, amount := 5,
             interval_seconds := 10, last_payment_timestamp := 10,
             status := .Active, prepaid_balance := 0,
             usage_enabled := true } := by decide

/-- C2 (amended: without `amount > 0`, which creation never validates):
in every reachable state every stored record has a non-negative prepaid
balance; and across any further invocation a stored record's status
moves only along transitions the state machine accepts, its payment
timestamp never decreases, and that timestamp changes only when the
invocation was a successful interval charge of that id. -/
theorem C2_reachable_state_invariants :
    ∀ s, Vault.Reachable s →
      (∀ id r, Vault.getRec s.subs id = some r → 0 ≤ r.prepaid_balance) ∧
      (∀ op id r r', Vault.getRec s.subs id = some r →
        Vault.getRec (Vault.applyOp op s).subs id = some r' →
        Vault.can_transition r.status r'.status = true ∧
        r.last_payment_timestamp ≤ r'.last_payment_timestamp ∧
        (r'.last_payment_timestamp ≠ r.last_payment_timestamp →
          ∃ now, op = Vault.Op.opChargeSub id now ∧
            ∃ s2, Vault.run op s = Vault.Outcome.ok () s2)) := by
  intro s hs
  have hInv := Vault.reachable_storeInv s hs
  exact ⟨fun id r hr => (hInv id r hr).1,
    fun op id r r' hr hr' => Vault.record_step s hInv op id r r' hr hr'⟩

/-- C2 witness: the invariant theorem instantiated on the reachable
one-subscription state and a pause invocation. -/
theorem C2_reachable_state_invariants_witness :
    Vault.can_transition Vault.exRec0.status
      Vault.SubscriptionStatus.Paused = true := by
  have h := (C2_reachable_state_invariants Vault.exStateW
      (Vault.Reachable.step _ _ Vault.Reachable.base)).2
      (Vault.Op.opPause 0 3 true) 0 Vault.exRec0
      ({ Vault.exRec0 with status := Vault.SubscriptionStatus.Paused })
      (by decide) (by decide)
  exact h.1

/-- C2 counterexample: `create_subscription` performs no validation of
`amount`, so a reachable state stores a record with `amount = -5`,
refuting the claimed invariant `amount > 0`. -/
theorem C2_counterexample_amount_not_validated :
    ¬ (∀ s, Vault.Reachable s → ∀ id r,
        Vault.getRec s.subs id = some r → 0 < r.amount) := by
  intro hall
  have h := hall (Vault.applyOp
      (Vault.Op.opCreate 1 2 (-5) 10 true 0 true) Vault.emptyState)
      (Vault.Reachable.step _ _ Vault.Reachable.base) 0
      { subscriber := 1, merchant := 2, amount := -5,
        interval_seconds := 10, last_payment_timestamp := 0,
        status := .Active, prepaid_balance := 0, usage_enabled := true }
      (by decide)
  exact absurd h (by decide)

/-- C4: `charge_usage` checks, in order, existence, `Active` status,
the usage flag, positivity of the amount, and balance sufficiency, each
failing with its own error and leaving the state unchanged; on success
it debits exactly `usage_amount`, sets the status to
`InsufficientBalance` exactly when the new balance is zero (keeping
`Active` otherwise), and leaves the timestamp and every other field
untouched. -/
theorem C4_charge_usage_exact :
    ∀ (s : Vault.VaultState) (id : Nat) (amt : Int),
      (Vault.getRec s.subs id = none →
        Vault.charge_usage id amt s =
          Vault.Outcome.err Vault.Error.NotFound s) ∧
      ∀ r, Vault.getRec s.subs id = some r →
        (r.status ≠ Vault.SubscriptionStatus.Active →
          Vault.charge_usage id amt s =
            Vault.Outcome.err Vault.Error.NotActive s) ∧
        (r.status = Vault.SubscriptionStatus.Active →
          r.usage_enabled = false →
          Vault.charge_usage id amt s =
            Vault.Outcome.err Vault.Error.UsageNotEnabled s) ∧
        (r.status = Vault.SubscriptionStatus.Active →
          r.usage_enabled = true → amt ≤ 0 →
          Vault.charge_usage id amt s =
            Vault.Outcome.err Vault.Error.InvalidAmount s) ∧
        (r.status = Vault.SubscriptionStatus.Active →
          r.usage_enabled = true → 0 < amt → r.prepaid_balance < amt →
          Vault.charge_usage id amt s =
            Vault.Outcome.err Vault.Error.InsufficientPrepaidBalance s) ∧
        (r.status = Vault.SubscriptionStatus.Active →
          r.usage_enabled = true → 0 < amt → amt ≤ r.prepaid_balance →
          Vault.charge_usage id amt s = Vault.Outcome.ok ()
            (Vault.setSub s id
              ({ r with prepaid_balance := r.prepaid_balance - amt,
                        status := if r.prepaid_balance - amt = 0 then
                            Vault.SubscriptionStatus.InsufficientBalance
                          else Vault.SubscriptionStatus.Active }))) := by
  intro s id amt
  constructor
  · intro hn
    simp [Vault.charge_usage, hn]
  · intro r hr
    refine ⟨?_, ?_, ?_, ?_, ?_⟩
    · intro hst
      simp [Vault.charge_usage, hr, hst]
    · intro hst hue
      simp [Vault.charge_usage, hr, hst, hue]
    · intro hst hue hle
      simp [Vault.charge_usage, hr, hst, hue, hle]
    · intro hst hue hpos hbal
      have h1 : ¬ amt ≤ 0 := by omega
      simp [Vault.charge_usage, hr, hst, hue, h1, hbal]
    · intro hst hue hpos hble
      have h1 : ¬ amt ≤ 0 := by omega
      have h2 : ¬ r.prepaid_balance < amt := by omega
      simp [Vault.charge_usage, hr, hst, hue, h1, h2, Vault.setSub]

/-- C4 witness: draining a balance of 7 by a usage charge of 7 succeeds
and marks the record `InsufficientBalance`. -/
theorem C4_charge_usage_exact_witness :
    Vault.charge_usage 0 7 Vault.exStateBal = Vault.Outcome.ok ()
      (Vault.setSub Vault.exStateBal 0
        ({ Vault.exRecBal with prepaid_balance := 0,
                               status :=
                                 Vault.SubscriptionStatus.InsufficientBalance })) := by
  have h := ((C4_charge_usage_exact Vault.exStateBal 0 7).2 Vault.exRecBal
      (by decide)).2.2.2.2 (by decide) (by decide) (by decide) (by decide)
  rw [h]
  decide

/-- C5 (code evaluated at the failing input): with `min_topup = 5`, a
deposit of 3 fails `BelowMinimumTopup` without mutation, but a deposit
of 10 also mutates nothing — the state is returned unchanged and the
record's balance stays 0, because crediting `prepaid_balance` is a TODO
stub in the source (`// TODO: transfer USDC from subscriber, increase
prepaid_balance`), contradicting the claimed increase by exactly
`amount`. -/
theorem C5_deposit_credits_nothing :
    Vault.deposit_funds 0 1 3 true Vault.exStateMin =
      Vault.Outcome.err Vault.Error.BelowMinimumTopup Vault.exStateMin ∧
    Vault.deposit_funds 0 1 10 true Vault.exStateMin =
      Vault.Outcome.ok () Vault.exStateMin ∧
    Vault.getRec Vault.exStateMin.subs 0 = some Vault.exRec0 ∧
    Vault.exRec0.prepaid_balance = 0 := by decide

/-- C6 counterexample: an interval charge on a record whose
`last_payment_timestamp + interval_seconds` exceeds `u64::MAX` traps
(the source's `.expect("interval overflow")` panic) instead of
returning an `Overflow` error — no such error variant exists in the
source's `Error` enum. -/
theorem C6_counterexample_overflow_panics :
    Vault.charge_subscription 1 99 Vault.exStateB =
      Vault.Outcome.trap := by decide

/-- C6 (amended): overflow in the interval charge's timestamp addition
aborts execution with a panic — it never yields an error value, and the
error taxonomy of the source has no `Overflow` variant to yield. -/
theorem C6_overflow_traps :
    ∀ (s : Vault.VaultState) (id now : Nat) (r : Vault.Subscription),
      Vault.getRec s.subs id = some r →
      r.status = Vault.SubscriptionStatus.Active →
      Vault.U64_MOD ≤ r.last_payment_timestamp + r.interval_seconds →
      Vault.charge_subscription id now s = Vault.Outcome.trap := by
  intro s id now r hr hst hov
  simp [Vault.charge_subscription, hr, hst, hov]

/-- C6 witness: the overflow-trap theorem instantiated on the concrete
overflowing record at a different call time. -/
theorem C6_overflow_traps_witness :
    Vault.charge_subscription 1 7 Vault.exStateB = Vault.Outcome.trap :=
  C6_overflow_traps Vault.exStateB 1 7 Vault.exRecOv (by decide)
    (by decide) (by decide)

/-- C7: every invocation that returns an error leaves the store
unchanged.  In the source this holds without any exception: the
insufficient-balance report-and-mark path the claim carves out does not
exist (`charge_subscription` neither reads the balance nor has an
`InsufficientBalance` error to return), so the carve-out is vacuous; in
particular `IntervalNotElapsed`, `NotActive` and `NotFound` interval
charges and every failing `charge_usage` mutate nothing. -/
theorem C7_errors_leave_store_unchanged :
    ∀ (op : Vault.Op) (s s' : Vault.VaultState) (e : Vault.Error),
      Vault.run op s = Vault.Outcome.err e s' → s' = s := by
  intro op s s' e h
  cases op with
  | opInit token admin m => exact Vault.Outcome.noConfusion h
  | opSetMinTopup a m authd => exact Vault.set_min_topup_err_state h
  | opGetMinTopup =>
      exact Vault.get_min_topup_err_state (Vault.forget_err_inv h)
  | opCreate sub mer amount iv ue now authd =>
      exact (Vault.create_subscription_no_err (Vault.forget_err_inv h)).elim
  | opDeposit id sub amount authd =>
      exact Vault.deposit_funds_err_state
        (show Vault.deposit_funds id sub amount authd s =
          Vault.Outcome.err e s' from h)
  | opChargeSub id now => exact Vault.charge_subscription_err_state h
  | opChargeUsage id amount => exact Vault.charge_usage_err_state h
  | opCancel id a authd =>
      exact Vault.cancel_subscription_err_state
        (show Vault.cancel_subscription id a authd s =
          Vault.Outcome.err e s' from h)
  | opPause id a authd =>
      exact Vault.pause_subscription_err_state
        (show Vault.pause_subscription id a authd s =
          Vault.Outcome.err e s' from h)
  | opResume id a authd =>
      exact Vault.resume_subscription_err_state
        (show Vault.resume_subscription id a authd s =
          Vault.Outcome.err e s' from h)
  | opWithdraw mer amount authd =>
      exact (Vault.withdraw_no_err
        (show Vault.withdraw_merchant_funds mer amount authd s =
          Vault.Outcome.err e s' from h)).elim
  | opGetSub id =>
      exact Vault.get_subscription_err_state (Vault.forget_err_inv h)

/-- C7 witness: a usage charge rejected for insufficient prepaid
balance returns the untouched state. -/
theorem C7_errors_leave_store_unchanged_witness :
    Vault.run (Vault.Op.opChargeUsage 0 99) Vault.exStateBal =
      Vault.Outcome.err Vault.Error.InsufficientPrepaidBalance
        Vault.exStateBal ∧
    Vault.exStateBal = Vault.exStateBal :=
  ⟨by decide,
    C7_errors_leave_store_unchanged (Vault.Op.opChargeUsage 0 99)
      Vault.exStateBal Vault.exStateBal
      Vault.Error.InsufficientPrepaidBalance (by decide)⟩

/-- C8 (amended): `init` overwrites the stored admin and `min_topup` on
every call — the source has no once-only guard.  Apart from `init`, no
operation alters the stored admin; apart from `init` and
`set_min_topup` none alters `min_topup`; and `set_min_topup` mutates
only when the host authorized the caller and the caller equals the
stored admin — an authorized non-admin caller gets `Unauthorized`, an
unauthorized caller traps. -/
theorem C8_config_mutation_channels :
    (∀ (a : Vault.Address) (m : Int) (authd : Bool)
        (s s' : Vault.VaultState) (u : Unit),
      Vault.set_min_topup a m authd s = Vault.Outcome.ok u s' →
        authd = true ∧ s.admin = some a ∧
        s' = { s with min_topup := some m }) ∧
    (∀ (a : Vault.Address) (m : Int) (authd : Bool) (s : Vault.VaultState),
      (Vault.applyOp (Vault.Op.opSetMinTopup a m authd) s).admin =
        s.admin) ∧
    (∀ (a st : Vault.Address) (m : Int) (s : Vault.VaultState),
      s.admin = some st → a ≠ st →
      Vault.set_min_topup a m true s =
        Vault.Outcome.err Vault.Error.Unauthorized s) ∧
    (∀ (a : Vault.Address) (m : Int) (s : Vault.VaultState),
      Vault.set_min_topup a m false s = Vault.Outcome.trap) ∧
    (∀ (op : Vault.Op) (s : Vault.VaultState),
      Vault.Op.mutatesConfig op = false →
      (Vault.applyOp op s).admin = s.admin ∧
      (Vault.applyOp op s).min_topup = s.min_topup) := by
  refine ⟨?_, ?_, ?_, ?_, ?_⟩
  · intro a m authd s s' u h
    rcases Vault.set_min_topup_cases a m authd s with
      ⟨ha, he⟩ | ⟨ha, hn, he⟩ | ⟨ha, st, hs, hne, he⟩ | ⟨ha, hs, he⟩ <;>
      rw [he] at h
    · exact Vault.Outcome.noConfusion h
    · exact Vault.Outcome.noConfusion h
    · exact Vault.Outcome.noConfusion h
    · exact ⟨ha, hs, ((Vault.Outcome.ok.inj h).2).symm⟩
  · intro a m authd s
    rcases Vault.set_min_topup_cases a m authd s with
      ⟨ha, he⟩ | ⟨ha, hn, he⟩ | ⟨ha, st, hs, hne, he⟩ | ⟨ha, hs, he⟩ <;>
      subst ha
    · rw [Vault.applyOp_of_trap (Vault.Op.opSetMinTopup a m false) he]
    · rw [Vault.applyOp_of_err (Vault.Op.opSetMinTopup a m true) he]
    · rw [Vault.applyOp_of_err (Vault.Op.opSetMinTopup a m true) he]
    · rw [Vault.applyOp_of_ok (Vault.Op.opSetMinTopup a m true) he]
  · intro a st m s hs hne
    simp [Vault.set_min_topup, hs, hne]
  · intro a m s
    rfl
  · intro op s hmc
    cases op with
    | opInit token admin m => simp [Vault.Op.mutatesConfig] at hmc
    | opSetMinTopup a m authd => simp [Vault.Op.mutatesConfig] at hmc
    | opGetMinTopup =>
        rcases Vault.get_min_topup_cases s with ⟨hn, he⟩ | ⟨m, hm, he⟩
        · rw [Vault.applyOp_of_err Vault.Op.opGetMinTopup
            (Vault.forget_err he)]
          exact ⟨rfl, rfl⟩
        · rw [Vault.applyOp_of_ok Vault.Op.opGetMinTopup
            (Vault.forget_ok he)]
          exact ⟨rfl, rfl⟩
    | opCreate sub mer amount iv ue now authd =>
        rcases Vault.create_subscription_cases sub mer amount iv ue now
          authd s with ⟨ha, he⟩ | ⟨ha, he⟩ <;> subst ha
        · rw [Vault.applyOp_of_trap (Vault.Op.opCreate sub mer amount iv ue
            now false) (Vault.forget_trap he)]
          exact ⟨rfl, rfl⟩
        · rw [Vault.applyOp_of_ok (Vault.Op.opCreate sub mer amount iv ue
            now true) (Vault.forget_ok he)]
          exact ⟨rfl, rfl⟩
    | opDeposit id sub amount authd =>
        rcases Vault.deposit_funds_cases id sub amount authd s with
          ⟨ha, he⟩ | ⟨ha, hn, he⟩ | ⟨ha, m, hm, hlt, he⟩ |
          ⟨ha, m, hm, hle, he⟩ <;> subst ha
        · rw [Vault.applyOp_of_trap (Vault.Op.opDeposit id sub amount false)
            he]
          exact ⟨rfl, rfl⟩
        · rw [Vault.applyOp_of_err (Vault.Op.opDeposit id sub amount true)
            he]
          exact ⟨rfl, rfl⟩
        · rw [Vault.applyOp_of_err (Vault.Op.opDeposit id sub amount true)
            he]
          exact ⟨rfl, rfl⟩
        · rw [Vault.applyOp_of_ok (Vault.Op.opDeposit id sub amount true)
            he]
          exact ⟨rfl, rfl⟩
    | opChargeSub id now =>
        rcases Vault.charge_subscription_cases id now s with
          ⟨hg, he⟩ | ⟨sub, hg, hst, he⟩ | ⟨sub, hg, hst, hov, he⟩ |
          ⟨sub, hg, hst, hov, hel, he⟩ | ⟨sub, hg, hst, hov, hel, he⟩
        · rw [Vault.applyOp_of_err (Vault.Op.opChargeSub id now) he]
          exact ⟨rfl, rfl⟩
        · rw [Vault.applyOp_of_err (Vault.Op.opChargeSub id now) he]
          exact ⟨rfl, rfl⟩
        · rw [Vault.applyOp_of_trap (Vault.Op.opChargeSub id now) he]
          exact ⟨rfl, rfl⟩
        · rw [Vault.applyOp_of_err (Vault.Op.opChargeSub id now) he]
          exact ⟨rfl, rfl⟩
        · rw [Vault.applyOp_of_ok (Vault.Op.opChargeSub id now) he]
          exact ⟨rfl, rfl⟩
    | opChargeUsage id amt =>
        rcases Vault.charge_usage_cases id amt s with
          ⟨hg, he⟩ | ⟨sub, hg, hst, he⟩ | ⟨sub, hg, hst, hue, he⟩ |
          ⟨sub, hg, hst, hue, hpos, he⟩ |
          ⟨sub, hg, hst, hue, hpos, hbal, he⟩ |
          ⟨sub, hg, hst, hue, hpos, hbal, he⟩
        · rw [Vault.applyOp_of_err (Vault.Op.opChargeUsage id amt) he]
          exact ⟨rfl, rfl⟩
        · rw [Vault.applyOp_of_err (Vault.Op.opChargeUsage id amt) he]
          exact ⟨rfl, rfl⟩
        · rw [Vault.applyOp_of_err (Vault.Op.opChargeUsage id amt) he]
          exact ⟨rfl, rfl⟩
        · rw [Vault.applyOp_of_err (Vault.Op.opChargeUsage id amt) he]
          exact ⟨rfl, rfl⟩
        · rw [Vault.applyOp_of_err (Vault.Op.opChargeUsage id amt) he]
          exact ⟨rfl, rfl⟩
        · rw [Vault.applyOp_of_ok (Vault.Op.opChargeUsage id amt) he]
          exact ⟨rfl, rfl⟩
    | opCancel id a authd =>
        rcases Vault.cancel_subscription_cases id a authd s with
          ⟨ha, he⟩ | ⟨ha, hn, he⟩ | ⟨ha, sub, hg, hv, he⟩ |
          ⟨ha, sub, hg, hv, he⟩ <;> subst ha
        · rw [Vault.applyOp_of_trap (Vault.Op.opCancel id a false) he]
          exact ⟨rfl, rfl⟩
        · rw [Vault.applyOp_of_err (Vault.Op.opCancel id a true) he]
          exact ⟨rfl, rfl⟩
        · rw [Vault.applyOp_of_err (Vault.Op.opCancel id a true) he]
          exact ⟨rfl, rfl⟩
        · rw [Vault.applyOp_of_ok (Vault.Op.opCancel id a true) he]
          exact ⟨rfl, rfl⟩
    | opPause id a authd =>
        rcases Vault.pause_subscription_cases id a authd s with
          ⟨ha, he⟩ | ⟨ha, hn, he⟩ | ⟨ha, sub, hg, hv, he⟩ |
          ⟨ha, sub, hg, hv, he⟩ <;> subst ha
        · rw [Vault.applyOp_of_trap (Vault.Op.opPause id a false) he]
          exact ⟨rfl, rfl⟩
        · rw [Vault.applyOp_of_err (Vault.Op.opPause id a true) he]
          exact ⟨rfl, rfl⟩
        · rw [Vault.applyOp_of_err (Vault.Op.opPause id a true) he]
          exact ⟨rfl, rfl⟩
        · rw [Vault.applyOp_of_ok (Vault.Op.opPause id a true) he]
          exact ⟨rfl, rfl⟩
    | opResume id a authd =>
        rcases Vault.resume_subscription_cases id a authd s with
          ⟨ha, he⟩ | ⟨ha, hn, he⟩ | ⟨ha, sub, hg, hv, he⟩ |
          ⟨ha, sub, hg, hv, he⟩ <;> subst ha
        · rw [Vault.applyOp_of_trap (Vault.Op.opResume id a false) he]
          exact ⟨rfl, rfl⟩
        · rw [Vault.applyOp_of_err (Vault.Op.opResume id a true) he]
          exact ⟨rfl, rfl⟩
        · rw [Vault.applyOp_of_err (Vault.Op.opResume id a true) he]
          exact ⟨rfl, rfl⟩
        · rw [Vault.applyOp_of_ok (Vault.Op.opResume id a true) he]
          exact ⟨rfl, rfl⟩
    | opWithdraw mer amount authd =>
        rcases Vault.withdraw_cases mer amount authd s with
          ⟨ha, he⟩ | ⟨ha, he⟩ <;> subst ha
        · rw [Vault.applyOp_of_trap (Vault.Op.opWithdraw mer amount false)
            he]
          exact ⟨rfl, rfl⟩
        · rw [Vault.applyOp_of_ok (Vault.Op.opWithdraw mer amount true) he]
          exact ⟨rfl, rfl⟩
    | opGetSub id =>
        rcases Vault.get_subscription_cases id s with
          ⟨hn, he⟩ | ⟨sub, hg, he⟩
        · rw [Vault.applyOp_of_err (Vault.Op.opGetSub id)
            (Vault.forget_err he)]
          exact ⟨rfl, rfl⟩
        · rw [Vault.applyOp_of_ok (Vault.Op.opGetSub id)
            (Vault.forget_ok he)]
          exact ⟨rfl, rfl⟩

/-- C8 witness: an authorized caller (2) who is not the stored admin
(1) gets `Unauthorized` and mutates nothing. -/
theorem C8_config_mutation_channels_witness :
    Vault.set_min_topup 2 9 true Vault.exStateI =
      Vault.Outcome.err Vault.Error.Unauthorized Vault.exStateI :=
  C8_config_mutation_channels.2.2.1 2 1 9 Vault.exStateI (by decide)
    (by decide)

/-- C8 counterexample: a second `init` call overwrites the stored admin
(1 becomes 2) and `min_topup` (5 becomes 7), refuting "no later call to
`init` can alter the stored admin or `min_topup`". -/
theorem C8_counterexample_reinit_overwrites :
    Vault.exStateI.admin = some 1 ∧ Vault.exStateI.min_topup = some 5 ∧
    (Vault.applyOp (Vault.Op.opInit 3 2 7) Vault.exStateI).admin =
      some 2 ∧
    (Vault.applyOp (Vault.Op.opInit 3 2 7) Vault.exStateI).min_topup =
      some 7 := by decide

/-- A trapping item aborts the whole batch. -/
theorem batch_cons_trap (id : Nat) (rest : List Nat) (now : Nat)
    (s : Vault.VaultState)
    (h : Vault.charge_subscription id now s = Vault.Outcome.trap) :
    Vault.batch_charge (id :: rest) now s = Vault.Outcome.trap := by
  simp [Vault.batch_charge, h]

/-- An erroring item contributes a failure slot and the rest of the
batch runs from the unchanged state. -/
theorem batch_cons_err (id : Nat) (rest : List Nat) (now : Nat)
    (s s0 : Vault.VaultState) (e : Vault.Error)
    (h : Vault.charge_subscription id now s = Vault.Outcome.err e s0) :
    Vault.batch_charge (id :: rest) now s =
      Vault.consSlot { success := false, error_code := e.code }
        (Vault.batch_charge rest now s) := by
  cases hb : Vault.batch_charge rest now s with
  | trap => simp [Vault.batch_charge, h, hb, Vault.consSlot]
  | err e2 s2 => simp [Vault.batch_charge, h, hb, Vault.consSlot]
  | ok slots s2 => simp [Vault.batch_charge, h, hb, Vault.consSlot]

/-- A successful item contributes a success slot and passes its updated
state to the rest of the batch. -/
theorem batch_cons_ok (id : Nat) (rest : List Nat) (now : Nat)
    (s s1 : Vault.VaultState) (u : Unit)
    (h : Vault.charge_subscription id now s = Vault.Outcome.ok u s1) :
    Vault.batch_charge (id :: rest) now s =
      Vault.consSlot { success := true, error_code := 0 }
        (Vault.batch_charge rest now s1) := by
  cases hb : Vault.batch_charge rest now s1 with
  | trap => simp [Vault.batch_charge, h, hb, Vault.consSlot]
  | err e2 s2 => simp [Vault.batch_charge, h, hb, Vault.consSlot]
  | ok slots s2 => simp [Vault.batch_charge, h, hb, Vault.consSlot]

/-- The batch itself never returns a call-level error: item errors go
into slots. -/
theorem batch_no_err (ids : List Nat) :
    ∀ (now : Nat) (s s2 : Vault.VaultState) (e : Vault.Error),
      Vault.batch_charge ids now s = Vault.Outcome.err e s2 → False := by
  induction ids with
  | nil =>
      intro now s s2 e h
      exact Vault.Outcome.noConfusion h
  | cons id rest ih =>
      intro now s s2 e h
      cases hc : Vault.charge_subscription id now s with
      | trap =>
          rw [batch_cons_trap id rest now s hc] at h
          exact Vault.Outcome.noConfusion h
      | err e0 s0 =>
          rw [batch_cons_err id rest now s s0 e0 hc] at h
          cases hb : Vault.batch_charge rest now s with
          | trap =>
              rw [hb] at h
              simp only [Vault.consSlot] at h
              exact Vault.Outcome.noConfusion h
          | err e2 s3 => exact ih now s s3 e2 hb
          | ok slots2 s3 =>
              rw [hb] at h
              simp only [Vault.consSlot] at h
              exact Vault.Outcome.noConfusion h
      | ok u s1 =>
          rw [batch_cons_ok id rest now s s1 u hc] at h
          cases hb : Vault.batch_charge rest now s1 with
          | trap =>
              rw [hb] at h
              simp only [Vault.consSlot] at h
              exact Vault.Outcome.noConfusion h
          | err e2 s3 => exact ih now s1 s3 e2 hb
          | ok slots2 s3 =>
              rw [hb] at h
              simp only [Vault.consSlot] at h
              exact Vault.Outcome.noConfusion h

/-- A batch that completes returns exactly one slot per input id. -/
theorem batch_length (ids : List Nat) :
    ∀ (now : Nat) (s : Vault.VaultState) (slots : List Vault.ChargeResult)
      (s2 : Vault.VaultState),
      Vault.batch_charge ids now s = Vault.Outcome.ok slots s2 →
      slots.length = ids.length := by
  induction ids with
  | nil =>
      intro now s slots s2 h
      have h' : Vault.Outcome.ok ([] : List Vault.ChargeResult) s =
          Vault.Outcome.ok slots s2 := h
      rw [← (Vault.Outcome.ok.inj h').1]
      rfl
  | cons id rest ih =>
      intro now s slots s2 h
      cases hc : Vault.charge_subscription id now s with
      | trap =>
          rw [batch_cons_trap id rest now s hc] at h
          exact Vault.Outcome.noConfusion h
      | err e0 s0 =>
          rw [batch_cons_err id rest now s s0 e0 hc] at h
          cases hb : Vault.batch_charge rest now s with
          | trap =>
              rw [hb] at h
              simp only [Vault.consSlot] at h
              exact Vault.Outcome.noConfusion h
          | err e2 s3 => exact (batch_no_err rest now s s3 e2 hb).elim
          | ok slots2 s3 =>
              rw [hb] at h
              simp only [Vault.consSlot] at h
              rw [← (Vault.Outcome.ok.inj h).1]
              simp [ih now s slots2 s3 hb]
      | ok u s1 =>
          rw [batch_cons_ok id rest now s s1 u hc] at h
          cases hb : Vault.batch_charge rest now s1 with
          | trap =>
              rw [hb] at h
              simp only [Vault.consSlot] at h
              exact Vault.Outcome.noConfusion h
          | err e2 s3 => exact (batch_no_err rest now s1 s3 e2 hb).elim
          | ok slots2 s3 =>
              rw [hb] at h
              simp only [Vault.consSlot] at h
              rw [← (Vault.Outcome.ok.inj h).1]
              simp [ih now s1 slots2 s3 hb]

/-- C9 (amended, modelled from the spec around the source's
`charge_subscription`): `batch_charge` returns one slot per id in input
order; empty input yields the empty sequence; an item failing with a
business-rule `Error` (not found, not active, interval not elapsed) is
recorded in that item's slot and neither aborts nor rolls back other
items; a successful item records a success slot and passes its updated
state on.  (An overflowing item traps the whole call instead — see the
counterexample — and no insufficient-balance failure exists in the
source's interval charge.) -/
theorem C9_batch_structure :
    (∀ (now : Nat) (s : Vault.VaultState),
      Vault.batch_charge [] now s = Vault.Outcome.ok [] s) ∧
    (∀ (ids : List Nat) (now : Nat) (s : Vault.VaultState)
        (slots : List Vault.ChargeResult) (s2 : Vault.VaultState),
      Vault.batch_charge ids now s = Vault.Outcome.ok slots s2 →
      slots.length = ids.length) ∧
    (∀ (id : Nat) (rest : List Nat) (now : Nat)
        (s s0 : Vault.VaultState) (e : Vault.Error),
      Vault.charge_subscription id now s = Vault.Outcome.err e s0 →
      Vault.batch_charge (id :: rest) now s =
        Vault.consSlot { success := false, error_code := e.code }
          (Vault.batch_charge rest now s)) ∧
    (∀ (id : Nat) (rest : List Nat) (now : Nat)
        (s s1 : Vault.VaultState) (u : Unit),
      Vault.charge_subscription id now s = Vault.Outcome.ok u s1 →
      Vault.batch_charge (id :: rest) now s =
        Vault.consSlot { success := true, error_code := 0 }
          (Vault.batch_charge rest now s1)) := by
  refine ⟨fun now s => rfl, ?_, ?_, ?_⟩
  · intro ids now s slots s2 h
    exact batch_length ids now s slots s2 h
  · intro id rest now s s0 e h
    exact batch_cons_err id rest now s s0 e h
  · intro id rest now s s1 u h
    exact batch_cons_ok id rest now s s1 u h

/-- C9 witness: the spec's `[A, A]` scenario — the first slot succeeds,
the second fails `IntervalNotElapsed` (code 1001), and both occupy
their own slot. -/
theorem C9_batch_structure_witness :
    Vault.batch_charge [0, 0] 50 Vault.exStateB = Vault.Outcome.ok
      [{ success := true, error_code := 0 },
       { success := false, error_code := 1001 }] Vault.exStateB2 := by
  have h := C9_batch_structure.2.2.2 0 [0] 50 Vault.exStateB
      Vault.exStateB2 () (by decide)
  rw [h]
  decide

/-- C9 counterexample: with an overflowing record at id 1 and an
eligible one at id 0, `batch_charge [1, 0]` traps instead of returning
a length-2 slot sequence — the overflow is not captured in the item's
slot and it aborts every other item, while id 0 charged alone
succeeds. -/
theorem C9_counterexample_overflow_aborts_batch :
    Vault.batch_charge [1, 0] 50 Vault.exStateB = Vault.Outcome.trap ∧
    Vault.batch_charge [0] 50 Vault.exStateB = Vault.Outcome.ok
      [{ success := true, error_code := 0 }] Vault.exStateB2 := by decide

/-- C10: whenever `pause_subscription`, `resume_subscription` or
`cancel_subscription` succeeds, the stored record changes only in its
status field — subscriber, merchant, amount, interval, payment
timestamp, prepaid balance and the usage flag are all preserved. -/
theorem C10_lifecycle_touch_only_status :
    ∀ (id : Nat) (a : Vault.Address) (authd : Bool)
      (s s' : Vault.VaultState) (u : Unit),
      (Vault.pause_subscription id a authd s = Vault.Outcome.ok u s' →
        ∀ r r', Vault.getRec s.subs id = some r →
          Vault.getRec s'.subs id = some r' →
          r'.subscriber = r.subscriber ∧ r'.merchant = r.merchant ∧
          r'.amount = r.amount ∧
          r'.interval_seconds = r.interval_seconds ∧
          r'.last_payment_timestamp = r.last_payment_timestamp ∧
          r'.prepaid_balance = r.prepaid_balance ∧
          r'.usage_enabled = r.usage_enabled ∧
          r'.status = Vault.SubscriptionStatus.Paused) ∧
      (Vault.resume_subscription id a authd s = Vault.Outcome.ok u s' →
        ∀ r r', Vault.getRec s.subs id = some r →
          Vault.getRec s'.subs id = some r' →
          r'.subscriber = r.subscriber ∧ r'.merchant = r.merchant ∧
          r'.amount = r.amount ∧
          r'.interval_seconds = r.interval_seconds ∧
          r'.last_payment_timestamp = r.last_payment_timestamp ∧
          r'.prepaid_balance = r.prepaid_balance ∧
          r'.usage_enabled = r.usage_enabled ∧
          r'.status = Vault.SubscriptionStatus.Active) ∧
      (Vault.cancel_subscription id a authd s = Vault.Outcome.ok u s' →
        ∀ r r', Vault.getRec s.subs id = some r →
          Vault.getRec s'.subs id = some r' →
          r'.subscriber = r.subscriber ∧ r'.merchant = r.merchant ∧
          r'.amount = r.amount ∧
          r'.interval_seconds = r.interval_seconds ∧
          r'.last_payment_timestamp = r.last_payment_timestamp ∧
          r'.prepaid_balance = r.prepaid_balance ∧
          r'.usage_enabled = r.usage_enabled ∧
          r'.status = Vault.SubscriptionStatus.Cancelled) := by
  intro id a authd s s' u
  refine ⟨?_, ?_, ?_⟩
  · intro h r r' hr hr'
    rcases Vault.pause_subscription_cases id a authd s with
      ⟨ha, he⟩ | ⟨ha, hn, he⟩ | ⟨ha, sub, hg, hv, he⟩ |
      ⟨ha, sub, hg, hv, he⟩ <;> rw [he] at h
    · exact Vault.Outcome.noConfusion h
    · exact Vault.Outcome.noConfusion h
    · exact Vault.Outcome.noConfusion h
    · obtain ⟨h1, h2⟩ := Vault.Outcome.ok.inj h
      subst h2
      have hsr := Vault.getRec_some_inj hg hr
      subst hsr
      have hr2 : Vault.getRec (Vault.setRec s.subs id
          ({ r with status := Vault.SubscriptionStatus.Paused })) id =
            some r' := hr'
      rw [Vault.getRec_setRec_self] at hr2
      have hrr := Option.some.inj hr2
      subst hrr
      exact ⟨rfl, rfl, rfl, rfl, rfl, rfl, rfl, rfl⟩
  · intro h r r' hr hr'
    rcases Vault.resume_subscription_cases id a authd s with
      ⟨ha, he⟩ | ⟨ha, hn, he⟩ | ⟨ha, sub, hg, hv, he⟩ |
      ⟨ha, sub, hg, hv, he⟩ <;> rw [he] at h
    · exact Vault.Outcome.noConfusion h
    · exact Vault.Outcome.noConfusion h
    · exact Vault.Outcome.noConfusion h
    · obtain ⟨h1, h2⟩ := Vault.Outcome.ok.inj h
      subst h2
      have hsr := Vault.getRec_some_inj hg hr
      subst hsr
      have hr2 : Vault.getRec (Vault.setRec s.subs id
          ({ r with status := Vault.SubscriptionStatus.Active })) id =
            some r' := hr'
      rw [Vault.getRec_setRec_self] at hr2
      have hrr := Option.some.inj hr2
      subst hrr
      exact ⟨rfl, rfl, rfl, rfl, rfl, rfl, rfl, rfl⟩
  · intro h r r' hr hr'
    rcases Vault.cancel_subscription_cases id a authd s with
      ⟨ha, he⟩ | ⟨ha, hn, he⟩ | ⟨ha, sub, hg, hv, he⟩ |
      ⟨ha, sub, hg, hv, he⟩ <;> rw [he] at h
    · exact Vault.Outcome.noConfusion h
    · exact Vault.Outcome.noConfusion h
    · exact Vault.Outcome.noConfusion h
    · obtain ⟨h1, h2⟩ := Vault.Outcome.ok.inj h
      subst h2
      have hsr := Vault.getRec_some_inj hg hr
      subst hsr
      have hr2 : Vault.getRec (Vault.setRec s.subs id
          ({ r with status := Vault.SubscriptionStatus.Cancelled })) id =
            some r' := hr'
      rw [Vault.getRec_setRec_self] at hr2
      have hrr := Option.some.inj hr2
      subst hrr
      exact ⟨rfl, rfl, rfl, rfl, rfl, rfl, rfl, rfl⟩

/-- C10 witness: pausing the concrete active subscription preserves its
prepaid balance. -/
theorem C10_lifecycle_touch_only_status_witness :
    ({ Vault.exRec0 with status := Vault.SubscriptionStatus.Paused } :
      Vault.Subscription).prepaid_balance =
      Vault.exRec0.prepaid_balance := by
  have h := (C10_lifecycle_touch_only_status 0 9 true Vault.exState0
      (Vault.setSub Vault.exState0 0
        ({ Vault.exRec0 with status := Vault.SubscriptionStatus.Paused }))
      ()).1 (by decide) Vault.exRec0
      ({ Vault.exRec0 with status := Vault.SubscriptionStatus.Paused })
      (by decide) (by decide)
  exact h.2.2.2.2.2.1
